import Mathlib

/-!
# Verification of the linehaul streaming pipeline

Shallow embedding of the pypi/linehaul source in Lean 4, together with
theorems settling the frozen specification claims.  Each section embeds one
source module:

* `LineReceiver` — `linehaul/protocol/line_receiver.py`
* `Syslog`       — `linehaul/syslog/parser.py`
* `UA`           — `linehaul/ua/impl.py`, `linehaul/ua/parser.py`
* `Events`       — `linehaul/events/parser.py`
* `Server`       — `linehaul/server.py`
* `Migration`    — `linehaul/migration.py`
-/

namespace Linehaul

/-! ## Line framer (`linehaul/protocol/line_receiver.py`)

`LineReceiver` accumulates bytes in `_buffer`, raising `BufferTooLargeError`
as soon as the buffer exceeds `_max_line_size`, and otherwise repeatedly
extracts `\n`-terminated frames (byte `10`), handing each to the callback and
keeping only non-`None` callback results.  `_searched` remembers how far the
buffer has already been scanned for a newline. -/

namespace LineReceiver

/-- Errors raised by the line receiver. -/
inductive FramerError where
  | bufferTooLarge
  | truncatedLine (line : List UInt8)
  deriving DecidableEq, Repr

/-- The mutable state of a `LineReceiver`: `_buffer`, `_searched` and
`_max_line_size` (the constructor substitutes `16384` for `None`). -/
structure State where
  buffer : List UInt8
  searched : Nat
  maxLineSize : Nat
  deriving Repr

/-- `LineReceiver.__init__` with an empty buffer. -/
def State.init (maxLineSize : Nat := 16384) : State :=
  { buffer := [], searched := 0, maxLineSize := maxLineSize }

/-- The newline byte `b"\n"`. -/
def newline : UInt8 := 10

/-- `bytearray.index(b"\n", searched)`: index of the first newline at
position `≥ searched`, if any. -/
def findNewline (buffer : List UInt8) (searched : Nat) : Option Nat :=
  match (buffer.drop searched).findIdx? (· == newline) with
  | none => none
  | some i => some (searched + i)

/-- The `while True` loop of `receive_data`: starting from scan position
`searched`, repeatedly find a newline, pass the prefix through the callback
(dropping `None` results), delete it from the buffer, and reset the scan
position; stop when no newline remains, recording the fully scanned length. -/
def extractLoop (cb : List UInt8 → Option α) (buffer : List UInt8)
    (searched : Nat) : List α × List UInt8 × Nat :=
  match h : findNewline buffer searched with
  | none => ([], buffer, buffer.length)
  | some found =>
      (match cb (buffer.take (found + 1)) with
       | some line => line :: (extractLoop cb (buffer.drop (found + 1)) 0).1
       | none => (extractLoop cb (buffer.drop (found + 1)) 0).1,
       (extractLoop cb (buffer.drop (found + 1)) 0).2)
  termination_by buffer.length
  decreasing_by
    all_goals
      have hlt : found < buffer.length := by
        unfold findNewline at h
        rcases h' : (buffer.drop searched).findIdx? (· == newline) with _ | i
        · simp [h'] at h
        · simp only [h', Option.some.injEq] at h
          have hi : i < (buffer.drop searched).length :=
            (List.findIdx?_eq_some_iff_findIdx_eq.mp h').1
          simp only [List.length_drop] at hi
          omega
      simp only [List.length_drop]
      omega

/-- `receive_data`: append the data, fail with `BufferTooLargeError` if the
buffer now exceeds the maximum line size, otherwise run the extraction loop. -/
def receiveData (cb : List UInt8 → Option α) (st : State) (data : List UInt8) :
    Except FramerError (List α × State) :=
  let buffer := st.buffer ++ data
  if buffer.length > st.maxLineSize then
    .error .bufferTooLarge
  else
    let (lines, buf, s) := extractLoop cb buffer st.searched
    .ok (lines, { st with buffer := buf, searched := s })

/-- `close`: raise `TruncatedLineError` with the leftover bytes when the
buffer is non-empty. -/
def close (st : State) : Except FramerError Unit :=
  if st.buffer.length ≠ 0 then .error (.truncatedLine st.buffer) else .ok ()

/-- Feed a list of chunks to `receive_data` one after the other,
concatenating the frames returned by the successive calls. -/
def processChunks (cb : List UInt8 → Option α) (st : State) :
    List (List UInt8) → Except FramerError (List α × State)
  | [] => .ok ([], st)
  | c :: cs => do
      let (lines, st') ← receiveData cb st c
      let (rest, st'') ← processChunks cb st' cs
      pure (lines ++ rest, st'')

/-- The `\n`-terminated segments of a byte sequence, in order, each segment
carrying its trailing newline.  The trailing bytes after the last newline are
not part of any segment. -/
def linesOf : List UInt8 → List (List UInt8)
  | [] => []
  | b :: l =>
      if b = newline then [b] :: linesOf l
      else
        match linesOf l with
        | [] => []
        | f :: fs => (b :: f) :: fs

/-- The residue of a byte sequence after its last `\n`-terminated segment. -/
def restOf : List UInt8 → List UInt8
  | [] => []
  | b :: l =>
      if b = newline then restOf l
      else if newline ∈ l then restOf l else b :: l

/-- The resting invariant of a `LineReceiver`: the whole buffer has been
scanned and holds no newline. -/
def Inv (st : State) : Prop :=
  st.searched = st.buffer.length ∧ newline ∉ st.buffer

/-- Overflow-freedom of a chunk sequence: at every step, the carried-over
residue plus the new chunk fits within the line-size ceiling. -/
def NoOverflow (max : Nat) : List UInt8 → List (List UInt8) → Prop
  | _, [] => True
  | buffer, c :: cs =>
      (buffer ++ c).length ≤ max ∧ NoOverflow max (restOf (buffer ++ c)) cs

instance instDecidableNoOverflow :
    ∀ (max : Nat) (buffer : List UInt8) (chunks : List (List UInt8)),
    Decidable (NoOverflow max buffer chunks)
  | _, _, [] => .isTrue trivial
  | max, buffer, c :: cs =>
      have : Decidable (NoOverflow max (restOf (buffer ++ c)) cs) :=
        instDecidableNoOverflow max (restOf (buffer ++ c)) cs
      inferInstanceAs (Decidable ((buffer ++ c).length ≤ max ∧
        NoOverflow max (restOf (buffer ++ c)) cs))

end LineReceiver

/-! ## Logging

Log records carry a severity level and the rendered message text. -/

inductive LogLevel where
  | debug
  | info
  | warning
  | error
  deriving DecidableEq, Repr

structure Log where
  level : LogLevel
  msg : String
  deriving DecidableEq, Repr

/-! ## User-agent data model (`linehaul/ua/datastructures.py`)

The attrs classes, every field optional with default `None`. -/

namespace UA

structure Installer where
  name : Option String := none
  version : Option String := none
  deriving DecidableEq, Repr

structure Implementation where
  name : Option String := none
  version : Option String := none
  deriving DecidableEq, Repr

structure LibC where
  lib : Option String := none
  version : Option String := none
  deriving DecidableEq, Repr

structure Distro where
  name : Option String := none
  version : Option String := none
  id : Option String := none
  libc : Option LibC := none
  deriving DecidableEq, Repr

structure System where
  name : Option String := none
  release : Option String := none
  deriving DecidableEq, Repr

structure UserAgent where
  installer : Option Installer := none
  python : Option String := none
  implementation : Option Implementation := none
  distro : Option Distro := none
  system : Option System := none
  cpu : Option String := none
  openssl_version : Option String := none
  setuptools_version : Option String := none
  ci : Option Bool := none
  deriving DecidableEq, Repr

end UA

/-! ### Regex and string helpers

The format regexes of `linehaul/ua/parser.py` are simple anchored patterns
over `\S+`, `.+`, literals and small alternations; each is rendered below as
an explicit string matcher with the same language (Python `\S` is rendered
as `¬ Char.isWhitespace`, and `.` as any character — the inputs, being
single syslog lines, contain no newline). -/

/-- The numeric value of a string of ASCII digits. -/
def digitsToNat (ds : List Char) : Nat :=
  ds.foldl (fun n c => n * 10 + (c.toNat - 48)) 0

/-- Python regex `\S`. -/
def nonWS (c : Char) : Bool := !c.isWhitespace

/-- `str.startswith` (by character list, so concrete instances evaluate in
the kernel). -/
def pyStartsWith (s pre : String) : Bool := pre.data.isPrefixOf s.data

/-- `str.endswith`. -/
def pyEndsWith (s suf : String) : Bool := suf.data.isSuffixOf s.data

/-- `str.lower`. -/
def pyToLower (s : String) : String := ⟨s.data.map Char.toLower⟩

/-- Split at every character satisfying `p` (the pieces between separator
occurrences, in order, empty pieces included). -/
def splitOnP (p : Char → Bool) : List Char → List (List Char)
  | [] => [[]]
  | c :: rest =>
      let r := splitOnP p rest
      if p c then [] :: r
      else
        match r with
        | h :: t => (c :: h) :: t
        | [] => [[c]]

/-- `str.split(sep)` for a one-character separator. -/
def splitOnChar (sep : Char) : List Char → List (List Char) :=
  splitOnP (· = sep)

/-- Strip an expected literal prefix. -/
def dropPrefixL (lit : String) (cs : List Char) : Option (List Char) :=
  if lit.data.isPrefixOf cs then some (cs.drop lit.data.length) else none

/-- `re.search` for a pattern `MARKER<tail>`: try the tail matcher at the
leftmost occurrence of the literal marker, advancing on failure, as the
backtracking engine does. -/
def reSearch (marker : List Char) (tailCheck : List Char → Option β) :
    List Char → Option β
  | [] => none
  | c :: rest =>
      match (if marker.isPrefixOf (c :: rest) then
          tailCheck ((c :: rest).drop marker.length) else none) with
      | some v => some v
      | none => reSearch marker tailCheck rest

/-- Python `str.split()` (no arguments): whitespace-delimited tokens, empty
tokens discarded. -/
def pySplit (s : String) : List String :=
  ((splitOnP (fun c => c.isWhitespace) s.data).filter (· ≠ [])).map (⟨·⟩)

/-- Python `str.split(maxsplit=2)`. -/
def pySplitMax2 (s : String) : List String :=
  let cs := s.data.dropWhile (fun c => c.isWhitespace)
  if cs.isEmpty then []
  else
    let t1 := cs.takeWhile nonWS
    let r1 := (cs.drop t1.length).dropWhile (fun c => c.isWhitespace)
    if r1.isEmpty then [⟨t1⟩]
    else
      let t2 := r1.takeWhile nonWS
      let r2 := (r1.drop t2.length).dropWhile (fun c => c.isWhitespace)
      if r2.isEmpty then [⟨t1⟩, ⟨t2⟩] else [⟨t1⟩, ⟨t2⟩, ⟨r2⟩]

/-- Python `s.split("/", 1)[0]`. -/
def beforeFirstSlash (s : String) : String :=
  ⟨s.data.takeWhile (· ≠ '/')⟩

/-- Python `s.split("/", 1)[1]`; `none` models the `IndexError` when there
is no slash. -/
def afterFirstSlash (s : String) : Option String :=
  match (s.data.dropWhile (· ≠ '/')) with
  | '/' :: rest => some ⟨rest⟩
  | _ => none

namespace UA

/-! ### The `Parser` format classmethods (`linehaul/ua/parser.py`)

Each format returns the `UserAgent` that `cattr.structure(data, UserAgent)`
builds from the dict the Python function returns, or `none` both for an
explicit `return None` and for an exception (the dispatch loop in
`Parser.parse` catches every exception from a format, logs a warning, and
treats it as `None`). -/

/-- A `{"installer": {...}}`-only result. -/
def installerUA (name : Option String) (version : Option String) :
    UserAgent :=
  { installer := some { name := name, version := version } }

/-- Models `packaging.version.parse(v) in SpecifierSet(">=1.4,<6",
prereleases=True)`.  Exact for the plain dotted numeric releases exercised
below; any other shape (pre-releases, local versions, legacy versions) is
treated as outside the range, as a `LegacyVersion` is by a PEP 440
specifier. -/
def releaseOf (s : String) : Option (List Nat) :=
  let parts := splitOnChar '.' s.data
  if parts.all (fun p => !p.isEmpty && p.all Char.isDigit) then
    some (parts.map digitsToNat)
  else none

def releaseCmp : List Nat → List Nat → Ordering
  | [], [] => .eq
  | [], b :: bs => if b = 0 then releaseCmp [] bs else .lt
  | a :: as, [] => if a = 0 then releaseCmp as [] else .gt
  | a :: as, b :: bs =>
      if a < b then .lt else if b < a then .gt else releaseCmp as bs

def pipInRange_1_4_to_6 (s : String) : Bool :=
  match releaseOf s with
  | none => false
  | some r => releaseCmp r [1, 4] ≠ .lt && releaseCmp r [6] = .lt

/-- `Parser.pip_1_4_format`. -/
def pip_1_4_format (user_agent : String) : Option UserAgent := do
  if !pyStartsWith user_agent "pip/" then none
  else do
    let tok0 ← (pySplit user_agent).head?
    let version_str ← afterFirstSlash tok0
    if !pipInRange_1_4_to_6 version_str then none
    else
      match pySplitMax2 user_agent with
      | [_, impl, system] => do
          let implName := beforeFirstSlash impl
          -- data["implementation"]["version"], unless `IMPL` ends "/Unknown";
          -- `impl.split("/", 1)[1]` raises IndexError when there is no slash
          let implVer : Option String ←
            if pyEndsWith impl "/Unknown" then some none
            else (afterFirstSlash impl).map some
          let sysName : Option String :=
            if pyStartsWith system "Unknown/" then none
            else some (beforeFirstSlash system)
          let sysRel : Option String ←
            if pyEndsWith system "/Unknown" then some none
            else (afterFirstSlash system).map some
          let python : Option String :=
            if pyToLower implName = "cpython" then implVer else none
          some
            { installer := some { name := some "pip", version := some version_str },
              implementation := some { name := some implName, version := implVer },
              system :=
                if sysName.isNone ∧ sysRel.isNone then none
                else some { name := sysName, release := sysRel },
              python := python }
      | _ => none   -- unpacking `_, impl, system` raised ValueError

/-- `^Python-urllib/(?P<python>\d\.\d) TOOL/(?P<version>\S+)$`. -/
def matchUrllibTool (tool : String) (ua : String) :
    Option (String × String) :=
  match dropPrefixL "Python-urllib/" ua.data with
  | some (d1 :: '.' :: d2 :: ' ' :: rest) =>
      if d1.isDigit && d2.isDigit then
        match dropPrefixL (tool ++ "/") rest with
        | some v =>
            if !v.isEmpty && v.all nonWS then some (⟨[d1, '.', d2]⟩, ⟨v⟩)
            else none
        | none => none
      else none
  | _ => none

/-- `Parser.distribute_format`. -/
def distribute_format (user_agent : String) : Option UserAgent :=
  (matchUrllibTool "distribute" user_agent).map fun (py, v) =>
    { installerUA (some "distribute") (some v) with python := some py }

/-- `Parser.setuptools_format`: `_setuptools_re`, then
`_setuptools_new_re = ^setuptools/(?P<version>\S+) Python-urllib/(?P<python>\d\.\d)$`. -/
def setuptools_format (user_agent : String) : Option UserAgent :=
  match matchUrllibTool "setuptools" user_agent with
  | some (py, v) =>
      some { installerUA (some "setuptools") (some v) with python := some py }
  | none =>
      match dropPrefixL "setuptools/" user_agent.data with
      | some rest =>
          let v := rest.takeWhile nonWS
          if v.isEmpty then none
          else
            match dropPrefixL " Python-urllib/" (rest.drop v.length) with
            | some [d1, '.', d2] =>
                if d1.isDigit && d2.isDigit then
                  some { installerUA (some "setuptools") (some ⟨v⟩) with
                    python := some ⟨[d1, '.', d2]⟩ }
                else none
            | _ => none
      | none => none

/-- `Parser.pex_format`: `re.search` of `pex/(?P<version>\S+)$`. -/
def pex_format (user_agent : String) : Option UserAgent :=
  (reSearch "pex/".data
    (fun tail => if !tail.isEmpty && tail.all nonWS then some (⟨tail⟩ : String)
      else none) user_agent.data).map
    fun v => installerUA (some "pex") (some v)

/-- `^MARKER(?P<version>\S+)(?: .+)?$`. -/
def matchVersionOptTrail (marker : String) (ua : String) : Option String :=
  match dropPrefixL marker ua.data with
  | some rest =>
      let v := rest.takeWhile nonWS
      if v.isEmpty then none
      else
        match rest.drop v.length with
        | [] => some ⟨v⟩
        | ' ' :: (_ :: _) => some ⟨v⟩
        | _ => none
  | none => none

/-- `Parser.conda_format`: `^conda/(?P<version>\S+)(?: .+)?$`. -/
def conda_format (user_agent : String) : Option UserAgent :=
  (matchVersionOptTrail "conda/" user_agent).map fun v =>
    installerUA (some "conda") (some v)

/-- `Parser.bazel_format`: `^Bazel/(?P<version>.+)$`, stripping an optional
`release ` prefix from the version. -/
def bazel_format (user_agent : String) : Option UserAgent :=
  match dropPrefixL "Bazel/" user_agent.data with
  | some [] => none
  | some rest =>
      let version : String := ⟨rest⟩
      let version : String :=
        if pyStartsWith version "release " then ⟨version.data.drop 8⟩
        else version
      some (installerUA (some "Bazel") (some version))
  | none => none

/-- The tail `(?P<version>\S+) \(.+\)$` shared by the bandersnatch and devpi
patterns. -/
def versionParenTail (tail : List Char) : Option String :=
  let v := tail.takeWhile nonWS
  if v.isEmpty then none
  else
    match tail.drop v.length with
    | ' ' :: '(' :: t2 =>
        if t2.length ≥ 2 ∧ t2.getLast? = some ')' then some ⟨v⟩ else none
    | _ => none

/-- `Parser.bandersnatch_format`: `^bandersnatch/(?P<version>\S+) \(.+\)$`. -/
def bandersnatch_format (user_agent : String) : Option UserAgent :=
  ((dropPrefixL "bandersnatch/" user_agent.data).bind versionParenTail).map
    fun v => installerUA (some "bandersnatch") (some v)

/-- `Parser.devpi_format`: `re.search` of
`devpi-server/(?P<version>\S+) \(.+\)$`. -/
def devpi_format (user_agent : String) : Option UserAgent :=
  (reSearch "devpi-server/".data versionParenTail user_agent.data).map
    fun v => installerUA (some "devpi") (some v)

/-- `^MARKER(?P<version>\S+)$`. -/
def matchExactVersion (marker : String) (ua : String) : Option String :=
  (dropPrefixL marker ua.data).bind fun rest =>
    if !rest.isEmpty && rest.all nonWS then some ⟨rest⟩ else none

/-- `Parser.z3c_pypimirror_format`: `^z3c\.pypimirror/(?P<version>\S+)$`. -/
def z3c_pypimirror_format (user_agent : String) : Option UserAgent :=
  (matchExactVersion "z3c.pypimirror/" user_agent).map fun v =>
    installerUA (some "z3c.pypimirror") (some v)

/-- `Parser.artifactory_format`: `^Artifactory/(?P<version>\S+)$`. -/
def artifactory_format (user_agent : String) : Option UserAgent :=
  (matchExactVersion "Artifactory/" user_agent).map fun v =>
    installerUA (some "Artifactory") (some v)

/-- `Parser.nexus_format`: `^Nexus/(?P<version>\S+)` (unanchored tail). -/
def nexus_format (user_agent : String) : Option UserAgent :=
  match dropPrefixL "Nexus/" user_agent.data with
  | some rest =>
      let v := rest.takeWhile nonWS
      if v.isEmpty then none else some (installerUA (some "Nexus") (some ⟨v⟩))
  | none => none

/-- `Parser.pep381client_format`:
`^pep381client(?:-proxy)?/(?P<version>\S+)$`. -/
def pep381client_format (user_agent : String) : Option UserAgent :=
  (match matchExactVersion "pep381client-proxy/" user_agent with
    | some v => some v
    | none => matchExactVersion "pep381client/" user_agent).map
    fun v => installerUA (some "pep381client") (some v)

/-- `Parser.urllib2_format`: prefix `Python-urllib/`, a single
whitespace-delimited token, yielding `{"python": ua.split("/", 1)[1]}`. -/
def urllib2_format (user_agent : String) : Option UserAgent :=
  if !pyStartsWith user_agent "Python-urllib/" then none
  else if (pySplit user_agent).length > 1 then none
  else
    (afterFirstSlash user_agent).map fun py => { python := some py }

/-- `Parser.requests_format`: `^python-requests/(?P<version>\S+)(?: .+)?$`. -/
def requests_format (user_agent : String) : Option UserAgent :=
  (matchVersionOptTrail "python-requests/" user_agent).map fun v =>
    installerUA (some "requests") (some v)

/-- `Parser.homebrew_format`:
`^Homebrew/(?P<version>\S+)\s+\(Macintosh;\ Intel\ Mac\ OS\ X\ (?P<osx_version>[^)]+)\)`. -/
def homebrew_format (user_agent : String) : Option UserAgent :=
  match dropPrefixL "Homebrew/" user_agent.data with
  | some rest =>
      let v := rest.takeWhile nonWS
      if v.isEmpty then none
      else
        let r1 := rest.drop v.length
        let ws := r1.takeWhile (fun c => c.isWhitespace)
        if ws.isEmpty then none
        else
          match dropPrefixL "(Macintosh; Intel Mac OS X " (r1.drop ws.length) with
          | some r2 =>
              let osx := r2.takeWhile (· ≠ ')')
              if osx.isEmpty then none
              else
                match r2.drop osx.length with
                | ')' :: _ =>
                    some { installer := some ⟨some "Homebrew", some v.asString⟩,
                           distro := some ⟨some "OS X", some osx.asString,
                             none, none⟩ }
                | _ => none
          | none => none
  | none => none

/-- A `^MARKER\S+$` alternative of `_os_re`. -/
def prefixAllNonWS (marker : String) (cs : List Char) : Bool :=
  match dropPrefixL marker cs with
  | some rest => !rest.isEmpty && rest.all nonWS
  | none => false

/-- `Parser.os_format`: the multi-alternation `_os_re`. -/
def os_format (user_agent : String) : Option UserAgent :=
  if prefixAllNonWS "fetch libfetch/" user_agent.data ||
      prefixAllNonWS "libfetch/" user_agent.data ||
      user_agent = "OpenBSD ftp" ||
      pyStartsWith user_agent "Homebrew " ||
      pyStartsWith user_agent "MacPorts" ||
      pyStartsWith user_agent "NetBSD-ftp/" ||
      pyStartsWith user_agent "slapt-get" ||
      pyStartsWith user_agent "pypi-install/" ||
      user_agent = "slackrepo" ||
      pyStartsWith user_agent "PTXdist" ||
      pyStartsWith user_agent "GARstow/" ||
      pyStartsWith user_agent "xbps/" then
    some (installerUA (some "OS") none)
  else none

/-- A browser alternative followed by `(?:/|$)`. -/
def prefixSlashOrEnd (lit : String) (low : String) : Bool :=
  low = lit || pyStartsWith low (lit ++ "/")

/-- The `FDM\ \S+` browser alternative followed by `(?:/|$)`. -/
def fdmMatch (low : String) : Bool :=
  match dropPrefixL "fdm " low.data with
  | some t =>
      let r := t.takeWhile nonWS
      !r.isEmpty && (r.length = t.length || (r.drop 1).contains '/')
  | none => false

/-- `Parser.browser_format`: `_browser_re` (`re.IGNORECASE`: literals are
compared on the lowercased input). -/
def browser_format (user_agent : String) : Option UserAgent :=
  let low := pyToLower user_agent
  if prefixSlashOrEnd "mozilla" low ||
      prefixSlashOrEnd "safari" low ||
      prefixSlashOrEnd "wget" low ||
      prefixSlashOrEnd "curl" low ||
      prefixSlashOrEnd "opera" low ||
      prefixSlashOrEnd "aria2" low ||
      prefixSlashOrEnd "androiddownloadmanager" low ||
      prefixSlashOrEnd "com.apple.webkit.networking/" low ||
      fdmMatch low ||
      prefixSlashOrEnd "url/emacs" low ||
      prefixSlashOrEnd "firefox/" low ||
      prefixSlashOrEnd "ucweb" low ||
      prefixSlashOrEnd "links" low ||
      prefixSlashOrEnd "okhttp" low ||
      prefixSlashOrEnd "apache-httpclient" low then
    some (installerUA (some "Browser") none)
  else none

/-! ### The ignore pattern and dispatch of `Parser` -/

/-- `^Go\ \d\.\d\ package\ http$`. -/
def goIgnoreMatch (ua : String) : Bool :=
  match ua.data with
  | 'G' :: 'o' :: ' ' :: d1 :: '.' :: d2 :: rest =>
      d1.isDigit && d2.isDigit && rest = " package http".data
  | _ => false

/-- `^ltx71\ -\ \(http://ltx71.com/\)` — the `.` before `com` is unescaped
and matches any character; no `$`, so this is a prefix pattern. -/
def ltx71IgnoreMatch (ua : String) : Bool :=
  match dropPrefixL "ltx71 - (http://ltx71" ua.data with
  | some (_ :: rest) => "com/)".data.isPrefixOf rest
  | _ => false

/-- `^Pingdom\.com_bot_version_\d+\.\d+_\(https?://www.pingdom.com/\)$` —
the two `.` of `www.pingdom.com` are unescaped. -/
def pingdomIgnoreMatch (ua : String) : Bool :=
  match dropPrefixL "Pingdom.com_bot_version_" ua.data with
  | some rest =>
      let d1 := rest.takeWhile Char.isDigit
      if d1.isEmpty then false
      else
        match rest.drop d1.length with
        | '.' :: r2 =>
            let d2 := r2.takeWhile Char.isDigit
            if d2.isEmpty then false
            else
              match r2.drop d2.length with
              | '_' :: '(' :: 'h' :: 't' :: 't' :: 'p' :: r3 =>
                  let r4 := if r3.head? = some 's' then r3.drop 1 else r3
                  match dropPrefixL "://www" r4 with
                  | some (_ :: r5) =>
                      match dropPrefixL "pingdom" r5 with
                      | some (_ :: r6) => r6 = "com/)".data
                      | _ => false
                  | _ => false
              | _ => false
        | _ => false
  | none => false

/-- `Nutch` anywhere in the string. -/
def nutchIgnoreMatch (ua : String) : Bool :=
  (reSearch "Nutch".data (fun _ => some ()) ua.data).isSome

/-- `Parser.ignored`: whether `_ignore_re.search(user_agent)` matches. -/
def ignored (user_agent : String) : Bool :=
  pyStartsWith user_agent "Datadog Agent/" ||
  user_agent = "(null)" ||
  pyStartsWith user_agent "WordPress/" ||
  pyStartsWith user_agent "Chef Client/" ||
  pyStartsWith user_agent "Chef Knife/" ||
  user_agent = "Ruby" ||
  pyStartsWith user_agent "Slackbot-LinkExpanding" ||
  pyStartsWith user_agent "TextualInlineMedia/" ||
  pyStartsWith user_agent "WeeChat/" ||
  user_agent = "Download Master" ||
  pyStartsWith user_agent "Java/" ||
  goIgnoreMatch user_agent ||
  pyStartsWith user_agent "Go-http-client/" ||
  user_agent = "GNU Guile" ||
  user_agent = "github-olee" ||
  user_agent = "YisouSpider" ||
  pyStartsWith user_agent "Apache Ant/" ||
  pyStartsWith user_agent "Salt/" ||
  user_agent = "ansible-httpget" ||
  ltx71IgnoreMatch user_agent ||
  pyStartsWith user_agent "Scrapy/" ||
  pyStartsWith user_agent "spectool/" ||
  nutchIgnoreMatch user_agent ||
  pyStartsWith user_agent "AWSBrewLinkChecker/" ||
  pyStartsWith user_agent "Y!J-ASR/" ||
  user_agent = "NSIS_Inetc (Mozilla)" ||
  pyStartsWith user_agent "Debian uscan" ||
  pingdomIgnoreMatch user_agent ||
  user_agent = "MauiBot (crawler.feedback+dc@gmail.com)"

/-- The `formats` list of `Parser.parse`, in source order. -/
def formats : List (String → Option UserAgent) :=
  [pip_1_4_format, setuptools_format, distribute_format, pex_format,
   conda_format, bazel_format, bandersnatch_format, z3c_pypimirror_format,
   devpi_format, artifactory_format, nexus_format, pep381client_format,
   urllib2_format, requests_format, homebrew_format, os_format,
   browser_format]

/-- The `for format in formats` loop of `Parser.parse`: the first format
returning data wins (a format that raises is logged and treated as
returning `None`). -/
def tryFormats : List (String → Option UserAgent) → String → Option UserAgent
  | [], _ => none
  | f :: fs, ua =>
      match f ua with
      | some data => some data
      | none => tryFormats fs ua

/-- The exceptions of the user-agent parsing layer:
`UnknownUserAgentError(ua)` from `Parser.parse`, and the `AttributeError`
raised by the module-level `parse`. -/
inductive ParseError where
  | unknownUserAgent (ua : String)
  | attributeError
  deriving DecidableEq, Repr

/-- `Parser.parse` (the classmethod): try every format in order; on data,
return the structured `UserAgent`; otherwise return `None` for an ignored
agent and raise `UnknownUserAgentError(user_agent)` for the rest. -/
def Parser.parse (user_agent : String) :
    Except ParseError (Option UserAgent) :=
  match tryFormats formats user_agent with
  | some data => .ok (some data)
  | none =>
      if ignored user_agent then .ok none
      else .error (.unknownUserAgent user_agent)

/-- The module-level `parse` of `linehaul/ua/parser.py`:

    for parser in _parsers:          # USER_AGENT_PARSERS = [Pip6UserAgent]
        if parser.test(user_agent):
            ...

`Pip6UserAgent` is a `CallbackUserAgentParser` (`linehaul/ua/impl.py`),
which defines only `name` and `__call__` — there is no `test` attribute
anywhere in the class hierarchy — so the first loop iteration raises
`AttributeError` for every input, before any parsing or the fallback call
to `Parser.parse` is reached. -/
def parse (user_agent : String) : Except ParseError (Option UserAgent) :=
  .error .attributeError

/-! ### `ParserSet` dispatch (`linehaul/ua/impl.py`)

`ParserSet.__call__` walks `self._parsers` and returns the first parser's
result; a parser raising `UnableToParse` (here: returning `none`) is
skipped, a parser raising any other exception is logged at error severity
and likewise skipped, and `UnableToParse` is raised when no parser claims
the input.  The hit counters and the `_optimize` pass only reorder
`self._parsers`; they do not enter the per-call outcome, which is why the
dispatch is modelled as a function of the parser list alone. -/

def parserSetCall : List (String → Option β) → String → Option β
  | [], _ => none
  | p :: ps, ua =>
      match p ua with
      | some v => some v
      | none => parserSetCall ps ua

end UA

/-! ## Event data model (`linehaul/events/parser.py`)

The attrs classes `File`, `Download` and `SimpleRequest`; timestamps are the
`arrow.Arrow` UTC instants produced by the `_cattr` structure hook, modelled
by their calendar fields. -/

namespace Events

inductive PackageType where
  | bdist_dmg
  | bdist_dumb
  | bdist_egg
  | bdist_msi
  | bdist_rpm
  | bdist_wheel
  | bdist_wininst
  | sdist
  deriving DecidableEq, Repr

/-- An `arrow.Arrow` UTC instant. -/
structure Arrow where
  year : Nat
  month : Nat
  day : Nat
  hour : Nat
  minute : Nat
  second : Nat
  deriving DecidableEq, Repr

structure File where
  filename : String
  project : String
  version : String
  type : PackageType
  deriving DecidableEq, Repr

structure Download where
  timestamp : Arrow
  url : String
  file : File
  tls_protocol : Option String := none
  tls_cipher : Option String := none
  country_code : Option String := none
  details : Option UA.UserAgent := none
  deriving DecidableEq, Repr

structure SimpleRequest where
  timestamp : Arrow
  url : String
  project : String
  tls_protocol : Option String := none
  tls_cipher : Option String := none
  country_code : Option String := none
  details : Option UA.UserAgent := none
  deriving DecidableEq, Repr

/-! ### The pyparsing event grammar

`MESSAGE = MESSAGE_v3 | MESSAGE_v2 | MESSAGE_v1`, parsed with
`parseAll=True`.  `MESSAGE_v1` and `MESSAGE_v2` call `leaveWhitespace()`,
which in pyparsing recursively disables whitespace skipping, so their
fields are the exact `|`-separated segments; `MESSAGE_v3` does not, so each
of its tokens first skips pyparsing's default whitespace characters
(space, tab, newline — the inputs, one syslog message each, are single
lines).  `Word` classes here include space and tab
(`printables + " " + "\t" - {"|", "@"}`), so fields keep internal and
trailing blanks; `pyparsing` alternations commit to the first alternative
that matches at a position (no backtracking across `|`), which is why a
field like `(null)x` or `sdistx` fails the whole message rather than
falling back. -/

/-- The character class of the event grammar's `Word` tokens. -/
def eventPrintable (c : Char) : Bool :=
  ((33 ≤ c.toNat && c.toNat ≤ 126) || c = ' ' || c = '\t') &&
    c ≠ '|' && c ≠ '@'

/-- pyparsing `ParserElement.DEFAULT_WHITE_CHARS`. -/
def ppWs (c : Char) : Bool := c = ' ' || c = '\t' || c = '\n'

def wsTrim (f : List Char) : List Char := f.dropWhile ppWs

/-- A non-empty `Word` of event printables. -/
def wordOk (f : List Char) : Bool := !f.isEmpty && f.all eventPrintable

/-- The captured results of `MESSAGE.parseString(_, parseAll=True)`.
`message_type` is `""` for v1/v2 messages (the result name is only set by
the v3 sigils; an unset pyparsing result reads as `""`).  A `none` field
is the `(null)` literal (the `NullValue` parse action); `some ""` is an
absent optional part. -/
structure ParsedMessage where
  message_type : String
  timestamp : String
  country_code : String
  url : String
  tls_protocol : Option String := some ""
  tls_cipher : Option String := some ""
  project_name : Option String := some ""
  version : Option String := some ""
  package_type : Option String := some ""
  user_agent : String
  deriving DecidableEq, Repr

def packageTypeVocab : List String :=
  ["sdist", "bdist_wheel", "bdist_dmg", "bdist_dumb", "bdist_egg",
   "bdist_msi", "bdist_rpm", "bdist_wininst"]

/-- A strict (v1/v2) `Word` field. -/
def v2Word (f : List Char) : Option String :=
  if wordOk f then some ⟨f⟩ else none

/-- A strict optional field (`Optional(COUNTRY_CODE)`): empty means
absent. -/
def v2OptWord (f : List Char) : Option String :=
  if f.isEmpty then some "" else v2Word f

/-- A strict `NULL | Word` field; once `L("(null)")` matches a prefix the
alternation is committed, so `(null)` followed by anything fails. -/
def v2Nullable (f : List Char) : Option (Option String) :=
  if "(null)".data.isPrefixOf f then
    if f = "(null)".data then some none else none
  else if wordOk f then some (some ⟨f⟩) else none

/-- A strict `PACKAGE_TYPE` field: `(null)` or exactly one word of the
package-type vocabulary (the literals are prefix-free, and a committed
literal followed by residue fails). -/
def v2PackageType (f : List Char) : Option (Option String) :=
  if "(null)".data.isPrefixOf f then
    if f = "(null)".data then some none else none
  else
    match packageTypeVocab.find? (fun v => v.data.isPrefixOf f) with
    | some v => if f = v.data then some (some v) else none
    | none => none

/-- A v3 `Word` field: leading whitespace is skipped by the token's
pre-parse. -/
def v3Word (f : List Char) : Option String :=
  let g := wsTrim f
  if wordOk g then some ⟨g⟩ else none

def v3OptWord (f : List Char) : Option String :=
  let g := wsTrim f
  if g.isEmpty then some "" else if wordOk g then some ⟨g⟩ else none

/-- A v3 `NULL | Word` field: whitespace may precede the token and follow
the `(null)` literal (the following `PIPE` skips it). -/
def v3Nullable (f : List Char) : Option (Option String) :=
  let g := wsTrim f
  if "(null)".data.isPrefixOf g then
    if (g.drop 6).all ppWs then some none else none
  else if wordOk g then some (some ⟨g⟩) else none

def v3PackageType (f : List Char) : Option (Option String) :=
  let g := wsTrim f
  if "(null)".data.isPrefixOf g then
    if (g.drop 6).all ppWs then some none else none
  else
    match packageTypeVocab.find? (fun v => v.data.isPrefixOf g) with
    | some v => if (g.drop v.data.length).all ppWs then some (some v)
        else none
    | none => none

/-- A v3 literal token (the sigils): leading whitespace skipped, trailing
whitespace left for the following `PIPE` to skip. -/
def v3Lit (lit : String) (f : List Char) : Bool :=
  let g := wsTrim f
  lit.data.isPrefixOf g && (g.drop lit.data.length).all ppWs

def splitPipes (cs : List Char) : List (List Char) := splitOnChar '|' cs

/-- `USER_AGENT = restOfLine`: the verbatim remainder (re-joining the
segments after the last grammar field).  `restOfLine` stops at a newline,
after which `parseAll=True` fails the whole parse. -/
def uaOf (uaRest : List (List Char)) : Option String :=
  let ua := List.intercalate ['|'] uaRest
  if ua.contains '\n' then none else some ⟨ua⟩

/-- `MESSAGE_v1` (strict): optional committed `1@` header, then
`REQUEST | PROJECT | USER_AGENT`. -/
def parseV1 (s : String) : Option ParsedMessage :=
  let body :=
    match s.data with
    | '1' :: '@' :: rest => rest
    | cs => cs
  match splitPipes body with
  | ts :: cc :: url :: name :: ver :: ptype :: ua1 :: uaMore => do
      let tsv ← v2Word ts
      let ccv ← v2OptWord cc
      let urlv ← v2Word url
      let namev ← v2Nullable name
      let verv ← v2Nullable ver
      let ptypev ← v2PackageType ptype
      let uav ← uaOf (ua1 :: uaMore)
      some { message_type := "", timestamp := tsv, country_code := ccv,
             url := urlv, project_name := namev, version := verv,
             package_type := ptypev, user_agent := uav }
  | _ => none

/-- `MESSAGE_v2` (strict): `2@` header, then
`REQUEST | TLS | PROJECT | USER_AGENT`. -/
def parseV2 (s : String) : Option ParsedMessage :=
  match s.data with
  | '2' :: '@' :: body =>
      match splitPipes body with
      | ts :: cc :: url :: tlsp :: tlsc :: name :: ver :: ptype ::
          ua1 :: uaMore => do
          let tsv ← v2Word ts
          let ccv ← v2OptWord cc
          let urlv ← v2Word url
          let tlspv ← v2Nullable tlsp
          let tlscv ← v2Nullable tlsc
          let namev ← v2Nullable name
          let verv ← v2Nullable ver
          let ptypev ← v2PackageType ptype
          let uav ← uaOf (ua1 :: uaMore)
          some { message_type := "", timestamp := tsv, country_code := ccv,
                 url := urlv, tls_protocol := tlspv, tls_cipher := tlscv,
                 project_name := namev, version := verv,
                 package_type := ptypev, user_agent := uav }
      | _ => none
  | _ => none

/-- `MESSAGE_v3`: `3@` header (whitespace-skipping), then
`SIMPLE_MESSAGE | DOWNLOAD_MESSAGE`; the sigil alternation commits. -/
def parseV3 (s : String) : Option ParsedMessage :=
  match wsTrim s.data with
  | '3' :: r1 =>
      match wsTrim r1 with
      | '@' :: body =>
          match splitPipes body with
          | sigil :: rest =>
              if v3Lit "simple" sigil then
                match rest with
                | ts :: cc :: url :: tlsp :: tlsc :: ua1 :: uaMore => do
                    let tsv ← v3Word ts
                    let ccv ← v3OptWord cc
                    let urlv ← v3Word url
                    let tlspv ← v3Nullable tlsp
                    let tlscv ← v3Nullable tlsc
                    let uav ← uaOf (ua1 :: uaMore)
                    some { message_type := "simple", timestamp := tsv,
                           country_code := ccv, url := urlv,
                           tls_protocol := tlspv, tls_cipher := tlscv,
                           user_agent := uav }
                | _ => none
              else if v3Lit "download" sigil then
                match rest with
                | ts :: cc :: url :: tlsp :: tlsc :: name :: ver :: ptype ::
                    ua1 :: uaMore => do
                    let tsv ← v3Word ts
                    let ccv ← v3OptWord cc
                    let urlv ← v3Word url
                    let tlspv ← v3Nullable tlsp
                    let tlscv ← v3Nullable tlsc
                    let namev ← v3Nullable name
                    let verv ← v3Nullable ver
                    let ptypev ← v3PackageType ptype
                    let uav ← uaOf (ua1 :: uaMore)
                    some { message_type := "download", timestamp := tsv,
                           country_code := ccv, url := urlv,
                           tls_protocol := tlspv, tls_cipher := tlscv,
                           project_name := namev, version := verv,
                           package_type := ptypev, user_agent := uav }
                | _ => none
              else none
          | [] => none
      | _ => none
  | _ => none

/-- `MESSAGE.parseString(message, parseAll=True)`: first of v3, v2, v1. -/
def parseMessage (s : String) : Option ParsedMessage :=
  match parseV3 s with
  | some p => some p
  | none =>
      match parseV2 s with
      | some p => some p
      | none => parseV1 s

/-! ### `_parse_download`, `_parse_simple` and `parse` -/

/-- The exceptions observable from `events.parser.parse`:
`UnparseableEvent`; the `KeyError` from `_DISPATCH[parsed.message_type]`
(v1/v2 messages carry no `message_type`, and `""` is not a key); the arrow
`ParserError` from the `_cattr` timestamp hook; the `ValueError` from
`PackageType(None)`; the `TypeError` from the `instance_of(str)` validators
of `File` on a `None` project/version; and the `AttributeError` raised by
the user-agent stage (`CallbackUserAgentParser` has no attribute `test`). -/
inductive EventError where
  | unparseableEvent
  | keyError
  | parserError
  | valueError
  | typeError
  | attributeError
  deriving DecidableEq, Repr

inductive Event where
  | download (d : Download)
  | simple (s : SimpleRequest)
  deriving DecidableEq, Repr

/-- `_value_or_none`: `NullValue` or the empty string become `None`. -/
def valueOrNone : Option String → Option String
  | none => none
  | some s => if s = "" then none else some s

def monthOf (m : List Char) : Option Nat :=
  match (⟨m⟩ : String) with
  | "Jan" => some 1
  | "Feb" => some 2
  | "Mar" => some 3
  | "Apr" => some 4
  | "May" => some 5
  | "Jun" => some 6
  | "Jul" => some 7
  | "Aug" => some 8
  | "Sep" => some 9
  | "Oct" => some 10
  | "Nov" => some 11
  | "Dec" => some 12
  | _ => none

/-- The `_cattr` structure hook for `arrow.Arrow`:
`arrow.get(d[5:-4], "DD MMM YYYY HH:mm:ss")` — skip the leading weekday
(`"Fri, "`) and the trailing `" GMT"` and read the remainder as a
day/month-abbreviation/year/time instant (taken as UTC). -/
def parseTimestampRFC (s : String) : Option Arrow :=
  let cs := s.data.drop 5
  let cs := cs.take (cs.length - 4)
  match cs with
  | [d1, d2, ' ', m1, m2, m3, ' ', y1, y2, y3, y4, ' ',
     h1, h2, ':', n1, n2, ':', s1, s2] =>
      if [d1, d2, y1, y2, y3, y4, h1, h2, n1, n2, s1, s2].all Char.isDigit
      then
        (monthOf [m1, m2, m3]).map fun mo =>
          { year := digitsToNat [y1, y2, y3, y4], month := mo,
            day := digitsToNat [d1, d2], hour := digitsToNat [h1, h2],
            minute := digitsToNat [n1, n2], second := digitsToNat [s1, s2] }
      else none
  | _ => none

def packageTypeOfString : String → Option PackageType
  | "sdist" => some .sdist
  | "bdist_wheel" => some .bdist_wheel
  | "bdist_dmg" => some .bdist_dmg
  | "bdist_dumb" => some .bdist_dumb
  | "bdist_egg" => some .bdist_egg
  | "bdist_msi" => some .bdist_msi
  | "bdist_rpm" => some .bdist_rpm
  | "bdist_wininst" => some .bdist_wininst
  | _ => none

/-- `posixpath.basename`. -/
def basename (s : String) : String :=
  ⟨(splitOnChar '/' s.data).getLastD []⟩

/-- `url.rstrip("/")`. -/
def rstripSlashes (s : String) : String :=
  ⟨(s.data.reverse.dropWhile (· = '/')).reverse⟩

def sepChar (c : Char) : Bool := c = '-' || c = '_' || c = '.'

/-- `re.sub(r"[-_.]+", "-", name)`: collapse every run of `-`, `_`, `.`
into a single `-`. -/
def collapseSep : List Char → List Char
  | [] => []
  | c :: rest =>
      if sepChar c then
        match collapseSep rest with
        | '-' :: out => '-' :: out
        | out => '-' :: out
      else c :: collapseSep rest

/-- `packaging.utils.canonicalize_name`. -/
def canonicalize_name (s : String) : String :=
  ⟨(collapseSep s.data).map Char.toLower⟩

/-- `_parse_download` followed by `_cattr.structure(data, Download)`.  The
structure hook for the timestamp runs first (arrow `ParserError` on
failure); inside the nested `File`, the `PackageType` enum conversion runs
during keyword construction (`ValueError` on `None`), after which the
`instance_of(str)` validators reject a `None` project or version
(`TypeError`). -/
def dispatchDownload (p : ParsedMessage) : Except EventError Download :=
  match parseTimestampRFC p.timestamp with
  | none => .error .parserError
  | some ts =>
      match valueOrNone p.package_type with
      | none => .error .valueError
      | some pt =>
          match packageTypeOfString pt with
          | none => .error .valueError
          | some ptype =>
              match valueOrNone p.project_name, valueOrNone p.version with
              | some proj, some ver =>
                  .ok { timestamp := ts, url := p.url,
                        file := ⟨basename p.url, proj, ver, ptype⟩,
                        tls_protocol := valueOrNone p.tls_protocol,
                        tls_cipher := valueOrNone p.tls_cipher,
                        country_code :=
                          if p.country_code = "" then none
                          else some p.country_code,
                        details := none }
              | _, _ => .error .typeError

/-- `_parse_simple` followed by `_cattr.structure(data, SimpleRequest)`. -/
def dispatchSimple (p : ParsedMessage) : Except EventError SimpleRequest :=
  match parseTimestampRFC p.timestamp with
  | none => .error .parserError
  | some ts =>
      .ok { timestamp := ts, url := p.url,
            project := canonicalize_name (basename (rstripSlashes p.url)),
            tls_protocol := valueOrNone p.tls_protocol,
            tls_cipher := valueOrNone p.tls_cipher,
            country_code :=
              if p.country_code = "" then none else some p.country_code,
            details := none }

/-- `_DISPATCH[parsed.message_type](parsed)`: the dict lookup raises
`KeyError` for v1/v2 messages, whose `message_type` is `""`. -/
def dispatch (p : ParsedMessage) : Except EventError Event :=
  if p.message_type = "download" then (dispatchDownload p).map .download
  else if p.message_type = "simple" then (dispatchSimple p).map .simple
  else .error .keyError

def Event.withDetails : Event → UA.UserAgent → Event
  | .download d, ua => .download { d with details := some ua }
  | .simple sr, ua => .simple { sr with details := some ua }

/-- Python `repr` of a string, as rendered by the `%r` of the unknown-agent
log call (approximate: quoting without escapes, which suffices for the
agents below). -/
def reprString (s : String) : String := "'" ++ s ++ "'"

/-- `events.parser.parse`: run the grammar (`UnparseableEvent` on
failure), dispatch on the message type, then classify the user agent with
the module-level `ua.parser.parse`.  Only `UnknownUserAgentError` is
caught — it is logged via `logging.info` (severity *info*, root logger)
and the event is returned **without** details; `None` from the classifier
(an ignored agent) drops the event; any other exception — in this tree the
unconditional `AttributeError` of the user-agent stage — propagates.
The returned pair carries the log records written by this function. -/
def parse (message : String) : Except EventError (Option Event) × List Log :=
  match parseMessage message with
  | none => (.error .unparseableEvent, [])
  | some parsed =>
      match dispatch parsed with
      | .error e => (.error e, [])
      | .ok event =>
          match UA.parse parsed.user_agent with
          | .ok none => (.ok none, [])
          | .ok (some ua) => (.ok (some (event.withDetails ua)), [])
          | .error (.unknownUserAgent u) =>
              (.ok (some event),
                [⟨.info, "Unknown User agent: " ++ reprString u⟩])
          | .error .attributeError => (.error .attributeError, [])

end Events

/-! ## Syslog parser (`linehaul/syslog/parser.py`)

The pyparsing grammar
`PRIORITY + TIMESTAMP + SP + HOSTNAME + SP + APPNAME + PROCID + COLON + SP +
MESSAGE` with `leaveWhitespace()` applied to the whole expression (which in
pyparsing recursively disables whitespace skipping in every sub-expression),
parsed with `parseAll=True`; followed by the field conversions performed by
the attrs converters of `SyslogMessage`. -/

namespace Syslog

/-- The exceptions `parse` can raise: `UnparseableSyslogMessage` (wrapping a
pyparsing `ParseException`), the `ValueError` raised by the
`Facility`/`Severity` enum converters on a non-member value, and the arrow
`ParserError` raised by the timestamp converter `arrow.get(t)`. -/
inductive SyslogError where
  | unparseable
  | valueError (value : Nat)
  | parserError
  deriving DecidableEq, Repr

/-- The parsed and converted `SyslogMessage` attrs class.  `facility` and
`severity` hold the numeric values of the `Facility`/`Severity` enum
members. -/
structure SyslogMessage where
  facility : Nat
  severity : Nat
  timestamp : Events.Arrow
  hostname : Option String
  appname : String
  procid : String
  message : String
  deriving DecidableEq, Repr

/-- pyparsing `printables`: the ASCII characters 33–126 (printable and not
whitespace). -/
def isPrintable (c : Char) : Bool :=
  33 ≤ c.toNat && c.toNat ≤ 126

/-- `Word(chars)` with no whitespace skipping: the maximal non-empty run of
characters satisfying `p`. -/
def parseWord (p : Char → Bool) (cs : List Char) :
    Option (List Char × List Char) :=
  let w := cs.takeWhile p
  if w.isEmpty then none else some (w, cs.drop w.length)

/-- A single expected literal character. -/
def expectChar (c : Char) : List Char → Option (List Char)
  | x :: rest => if x = c then some rest else none
  | [] => none

/-- `PRIORITY = LANGLE + Word(srange("[0-9]"), min=1, max=3) + RANGLE` with
the `int` parse action.  The `Word` is greedy up to three digits. -/
def parsePriority : List Char → Option (Nat × List Char)
  | '<' :: rest =>
      let digits := (rest.takeWhile Char.isDigit).take 3
      if digits.isEmpty then none
      else
        match rest.drop digits.length with
        | '>' :: rest' => some (digitsToNat digits, rest')
        | _ => none
  | _ => none

/-- The raw tokens captured by `SYSLOG_MESSAGE.parseString(_, parseAll=True)`
before the attrs converters run. -/
structure RawSyslog where
  priority : Nat
  timestamp : String
  hostname : String
  appname : String
  procid : String
  message : String
  deriving DecidableEq, Repr

/-- The syslog grammar.  The strict single-space separators follow from the
recursive `leaveWhitespace()`; `MESSAGE = restOfLine` captures the remainder,
and `parseAll=True` rejects input continuing past a newline. -/
def parseGrammar (s : String) : Option RawSyslog := do
  let cs := s.data
  let (pri, cs) ← parsePriority cs
  let (ts, cs) ← parseWord isPrintable cs
  let cs ← expectChar ' ' cs
  let (hn, cs) ← parseWord isPrintable cs
  let cs ← expectChar ' ' cs
  let (an, cs) ← parseWord (fun c => isPrintable c && c != '[') cs
  let cs ← expectChar '[' cs
  let (pid, cs) ← parseWord (fun c => isPrintable c && c != ']') cs
  let cs ← expectChar ']' cs
  let cs ← expectChar ':' cs
  let cs ← expectChar ' ' cs
  if cs.contains '\n' then none
  else
    some ⟨pri, ⟨ts⟩, ⟨hn⟩, ⟨an⟩, ⟨pid⟩, ⟨cs⟩⟩

/-- `arrow.get` on the canonical ISO-8601 UTC instant of the wire format
(`YYYY-MM-DDTHH:MM:SSZ`).  arrow accepts further ISO-8601 variants; only this
form is exercised by the theorems below. -/
def parseISOTimestamp (s : String) : Option Events.Arrow :=
  match s.data with
  | [y1, y2, y3, y4, '-', m1, m2, '-', d1, d2, 'T',
     h1, h2, ':', mi1, mi2, ':', s1, s2, 'Z'] =>
      if [y1, y2, y3, y4, m1, m2, d1, d2, h1, h2, mi1, mi2, s1, s2].all
          Char.isDigit then
        some ⟨digitsToNat [y1, y2, y3, y4], digitsToNat [m1, m2],
          digitsToNat [d1, d2], digitsToNat [h1, h2],
          digitsToNat [mi1, mi2], digitsToNat [s1, s2]⟩
      else none
  | _ => none

/-- `parse`: run the grammar (grammar failures become
`UnparseableSyslogMessage`), then build `SyslogMessage(**data)`.  The attrs
converters run in field order: `Facility(int(priority / 8))` first — raising
`ValueError` when the value is not one of the 24 enum members — then
`Severity` (always a member, since `priority mod 8 < 8`), then the arrow
timestamp conversion. -/
def parse (message : String) : Except SyslogError SyslogMessage :=
  match parseGrammar message with
  | none => .error .unparseable
  | some raw =>
      let facility := raw.priority / 8
      let severity := raw.priority - facility * 8
      if facility ≤ 23 then
        match parseISOTimestamp raw.timestamp with
        | none => .error .parserError
        | some ts =>
            .ok ⟨facility, severity, ts,
              if raw.hostname = "-" then none else some raw.hostname,
              raw.appname, raw.procid, raw.message⟩
      else .error (.valueError facility)

end Syslog

/-! ## Batcher / sender (`linehaul/server.py`)

`compute_batches` groups a compose window's records by the `YYYYMMDD` date of
their timestamp and wraps them into rows; `send_batch` wraps
`actually_send_batch` in a tenacity retry policy. -/

namespace Server

/-- Zero-padded two-digit field of the `YYYYMMDD` timestamp format. -/
def pad2 (n : Nat) : String :=
  if n < 10 then "0" ++ toString n else toString n

/-- Zero-padded four-digit field of the `YYYYMMDD` timestamp format. -/
def pad4 (n : Nat) : String :=
  if n < 10 then "000" ++ toString n
  else if n < 100 then "00" ++ toString n
  else if n < 1000 then "0" ++ toString n
  else toString n

/-- `item.timestamp.format("YYYYMMDD")`. -/
def formatYYYYMMDD (t : Events.Arrow) : String :=
  pad4 t.year ++ pad2 t.month ++ pad2 t.day

/-- `extract_item_date`. -/
def extract_item_date (item : Events.Download) : String :=
  formatYYYYMMDD item.timestamp

/-- One outgoing row `{"insertId": str(uuid.uuid4()), "json": row}`.  The
`json` field stands for the `_cattr.unstructure` serialisation of the record,
which is a pure injective per-record map; the row is modelled as carrying the
record itself. -/
structure Row where
  insertId : String
  json : Events.Download
  deriving DecidableEq, Repr

/-- The row comprehension of `compute_batches`: one fresh uuid per row, drawn
from the supply `uuids` (modelling the successive `uuid.uuid4()` draws). -/
def rowsOf (uuids : Nat → String) : Nat → List Events.Download → List Row
  | _, [] => []
  | off, item :: rest => ⟨uuids off, item⟩ :: rowsOf uuids (off + 1) rest

/-- The comparison used by `sorted(all_items, key=extract_item_date)`:
lexicographic comparison of the formatted date strings. -/
def dateLe (a b : Events.Download) : Bool :=
  decide (extract_item_date a ≤ extract_item_date b)

/-- `itertools.groupby`: split a list into maximal runs of adjacent elements
sharing a key. -/
def groupByKey (key : α → String) : List α → List (List α)
  | [] => []
  | a :: rest =>
      (a :: rest.takeWhile (fun b => key b == key a)) ::
        groupByKey key (rest.dropWhile (fun b => key b == key a))
  termination_by l => l.length
  decreasing_by
    have := (List.dropWhile_sublist (l := rest)
      (p := fun b => key b == key a)).length_le
    simp only [List.length_cons]
    omega

/-- The generator body of `compute_batches`: for each date group, yield the
`templateSuffix` (the first item's formatted date) and the rows, threading the
uuid supply. -/
def buildBatches (uuids : Nat → String) :
    Nat → List (List Events.Download) → List (String × List Row)
  | _, [] => []
  | off, g :: gs =>
      match g with
      | [] => buildBatches uuids off gs
      | a :: _ =>
          (extract_item_date a, rowsOf uuids off g) ::
            buildBatches uuids (off + g.length) gs

/-- `compute_batches`: sort the window's items by formatted event date, group
adjacent equal dates, and emit one `(templateSuffix, rows)` sub-batch per
group. -/
def compute_batches (uuids : Nat → String) (allItems : List Events.Download) :
    List (String × List Row) :=
  buildBatches uuids 0
    (groupByKey extract_item_date (allItems.mergeSort dateLe))

/-! ### Sending and retry (`send_batch` / `actually_send_batch`) -/

/-- The exception classes relevant to a send attempt: the four
retry-eligible classes named in the tenacity `retry_if_exception_type`
(`trio.TooSlowError`, `trio.BrokenStreamError`, `TokenFetchError`,
`BigQueryError`), and any other exception. -/
inductive SendError where
  | tooSlow
  | brokenStream
  | tokenFetch
  | bigQuery
  | other
  deriving DecidableEq, Repr

/-- Whether tenacity's `retry_if_exception_type` matches the exception. -/
def SendError.retryable : SendError → Bool
  | .tooSlow => true
  | .brokenStream => true
  | .tokenFetch => true
  | .bigQuery => true
  | .other => false

/-- The deadline `actually_send_batch` arms via `trio.fail_after` around one
`insert_all` call: the `api_timeout` argument, or 15 seconds when `None`. -/
def attemptDeadline (apiTimeout : Option Nat) : Nat :=
  apiTimeout.getD 15

/-- The tenacity-driven retry loop around `actually_send_batch`.  `behavior`
gives the outcome of attempt number `k` (`none` = success, `some e` = the
exception raised); `left` is the number of further attempts
`stop_after_attempt` still allows.  Returns the `fail_after` deadline each
attempt ran under, and the final outcome (`some e` = the exception re-raised
after the policy gave up or met a non-retryable error). -/
def runRetry (behavior : Nat → Option SendError) (apiTimeout : Option Nat)
    (k : Nat) : Nat → List Nat × Option SendError
  | 0 => ([attemptDeadline apiTimeout], behavior k)
  | left + 1 =>
      match behavior k with
      | none => ([attemptDeadline apiTimeout], none)
      | some e =>
          if e.retryable then
            let r := runRetry behavior apiTimeout (k + 1) left
            (attemptDeadline apiTimeout :: r.1, r.2)
          else ([attemptDeadline apiTimeout], some e)

/-- The observable outcome of one `send_batch` call: the deadline under which
each performed attempt ran, and the log records emitted.  `send_batch`
catches `trio.TooSlowError` and every other `Exception`, so it always returns
normally. -/
structure SendReport where
  deadlines : List Nat
  logs : List Log
  deriving DecidableEq, Repr

/-- `send_batch`: default the retry options (`retry_max_attempts = 10`),
run `actually_send_batch` under the tenacity policy, and on a final failure
log one error-level record carrying `len(batch)` and drop the batch
(`retry_max_wait` and `retry_multiplier` only shape the sleeps between
attempts, which carry no observable outcome here). -/
def send_batch (behavior : Nat → Option SendError) (batch : List ρ)
    (retryMaxAttempts retryMaxWait retryMultiplier apiTimeout : Option Nat) :
    SendReport :=
  let maxAttempts := retryMaxAttempts.getD 10
  let r := runRetry behavior apiTimeout 1 (maxAttempts - 1)
  match r.2 with
  | none => ⟨r.1, []⟩
  | some .tooSlow =>
      ⟨r.1, [⟨.error, "Timed out sending " ++ toString batch.length ++
        " items; Dropping them."⟩]⟩
  | some _ =>
      ⟨r.1, [⟨.error, "Error sending " ++ toString batch.length ++
        " items; Dropping them."⟩]⟩

end Server

/-! ## Schema migration (`linehaul/migration.py`)

`validate_schema` walks the existing and desired column lists with
`itertools.zip_longest`, raising `ValueError` on the first incompatibility;
`migrate` applies the desired schema when validation passes. -/

namespace Migration

/-- A BigQuery column: `{"name": …, "type": …, "mode": …, "fields": […]}`.
`fields` holds the nested columns of a `RECORD`-typed column. -/
inductive Col where
  | mk (name type mode : String) (fields : List Col)

def Col.name : Col → String
  | .mk n _ _ _ => n

def Col.type : Col → String
  | .mk _ t _ _ => t

def Col.mode : Col → String
  | .mk _ _ m _ => m

def Col.fields : Col → List Col
  | .mk _ _ _ f => f

/-- `validate_schema(existing, desired)`: the `zip_longest` walk.  A pair
with the sentinel on the desired side means a removed column; the sentinel on
the existing side means an added column, allowed only with mode `NULLABLE` or
`REPEATED`; a genuine pair must agree on name and type, may change mode only
`REQUIRED → NULLABLE`, and recurses into the nested fields of `RECORD`-typed
columns.  The first violated check raises `ValueError`. -/
def validate_schema : List Col → List Col → Except String Unit
  | [], [] => .ok ()
  | _ :: _, [] => .error "Cannot remove columns"
  | [], n :: ns =>
      if n.mode = "NULLABLE" ∨ n.mode = "REPEATED" then
        validate_schema [] ns
      else
        .error ("Cannot add non NULLABLE/REPEATED column " ++ n.name ++
          " to existing schema.")
  | e :: es, n :: ns =>
      if e.name ≠ n.name then
        .error ("Found column named " ++ n.name ++
          " in new schema when expected column named " ++ e.name)
      else if e.type ≠ n.type then
        .error ("Cannot change type of column " ++ e.name ++ " from " ++
          e.type ++ " to " ++ n.type ++ ".")
      else if e.mode ≠ n.mode ∧
          ¬(e.mode = "REQUIRED" ∧ n.mode = "NULLABLE") then
        .error ("Cannot change mode of column " ++ e.name ++
          " except from REQUIRED to NULLABLE")
      else if e.type = "RECORD" then
        match validate_schema e.fields n.fields with
        | .error msg => .error msg
        | .ok () => validate_schema es ns
      else validate_schema es ns
  termination_by e d => (sizeOf e, sizeOf d)
  decreasing_by
    · simp only [Prod.lex_iff]
      right
      refine ⟨trivial, ?_⟩
      simp only [List.cons.sizeOf_spec]
      omega
    · simp only [Prod.lex_iff]
      left
      cases e
      simp only [Col.fields, List.cons.sizeOf_spec, Col.mk.sizeOf_spec]
      omega
    · simp only [Prod.lex_iff]
      left
      simp only [List.cons.sizeOf_spec]
      omega
    · simp only [Prod.lex_iff]
      left
      simp only [List.cons.sizeOf_spec]
      omega

/-- The specification-side compatibility relation, phrased from the claim:
walking the two lists pairwise in order, every existing column is matched
positionally by a desired column of equal name and type whose mode is
unchanged or relaxed `REQUIRED → NULLABLE` (recursing into the nested fields
of `RECORD`-typed columns), and every extra desired column — necessarily
after all existing ones — has mode `NULLABLE` or `REPEATED`.  A desired list
shorter than the existing one is never compatible. -/
inductive SchemaCompatible : List Col → List Col → Prop where
  | nil (added : List Col)
      (hadded : ∀ c ∈ added, c.mode = "NULLABLE" ∨ c.mode = "REPEATED") :
      SchemaCompatible [] added
  | cons (e n : Col) (es ns : List Col)
      (hname : e.name = n.name)
      (htype : e.type = n.type)
      (hmode : e.mode = n.mode ∨ (e.mode = "REQUIRED" ∧ n.mode = "NULLABLE"))
      (hrec : e.type = "RECORD" → SchemaCompatible e.fields n.fields)
      (hrest : SchemaCompatible es ns) :
      SchemaCompatible (e :: es) (n :: ns)

end Migration

/-! # Part 2 — Theorems -/

namespace LineReceiver

theorem findNewline_lt (buffer : List UInt8) (searched found : Nat)
    (h : findNewline buffer searched = some found) : found < buffer.length := by
  unfold findNewline at h
  rcases h' : (buffer.drop searched).findIdx? (· == newline) with _ | i
  · simp [h'] at h
  · simp only [h', Option.some.injEq] at h
    have hi : i < (buffer.drop searched).length :=
      (List.findIdx?_eq_some_iff_findIdx_eq.mp h').1
    simp only [List.length_drop] at hi
    omega

theorem linesOf_eq_nil_iff (l : List UInt8) : linesOf l = [] ↔ newline ∉ l := by
  induction l with
  | nil => simp [linesOf]
  | cons b l ih =>
      by_cases hb : b = newline
      · simp [linesOf, hb]
      · simp only [linesOf, if_neg hb]
        cases h : linesOf l with
        | nil => simp [List.mem_cons, Ne.symm hb, ← ih, h]
        | cons f fs =>
            simp only [List.mem_cons]
            constructor
            · intro hc; exact absurd hc (by simp)
            · intro hc
              exact absurd (ih.mpr (fun hm => hc (Or.inr hm))) (by simp [h])

theorem restOf_eq_self (l : List UInt8) (h : newline ∉ l) : restOf l = l := by
  induction l with
  | nil => rfl
  | cons b l ih =>
      simp only [List.mem_cons, not_or] at h
      simp [restOf, (Ne.symm h.1 : b ≠ newline), h.2, ih h.2]

theorem restOf_not_mem (l : List UInt8) : newline ∉ restOf l := by
  induction l with
  | nil => simp [restOf]
  | cons b l ih =>
      by_cases hb : b = newline
      · simpa [restOf, hb] using ih
      · by_cases hm : newline ∈ l
        · simpa [restOf, hb, hm] using ih
        · simp [restOf, hb, hm, List.mem_cons, Ne.symm hb, hm]

/-- When the first newline of `l` sits at index `i`, `linesOf` splits off the
first `i + 1` bytes as a frame. -/
theorem linesOf_eq_cons (l : List UInt8) (i : Nat)
    (h : l.findIdx? (· == newline) = some i) :
    linesOf l = l.take (i + 1) :: linesOf (l.drop (i + 1)) := by
  induction l generalizing i with
  | nil => simp [List.findIdx?] at h
  | cons b l ih =>
      rw [List.findIdx?_cons] at h
      by_cases hb : b = newline
      · simp only [hb, beq_self_eq_true, if_pos] at h
        obtain rfl : i = 0 := by simpa using h.symm
        simp [linesOf, hb]
      · have hbeq : (b == newline) = false := by simpa using hb
        simp only [hbeq, Bool.false_eq_true, if_false, List.findIdx?_succ] at h
        rcases hgo : List.findIdx? (· == newline) l with _ | j
        · rw [hgo] at h
          exact absurd h (by simp)
        · rw [hgo] at h
          obtain rfl : i = j + 1 := by simpa using h.symm
          simp only [linesOf, if_neg hb, ih j hgo]
          simp [List.take_succ_cons, List.drop_succ_cons]

theorem restOf_eq_drop (l : List UInt8) (i : Nat)
    (h : l.findIdx? (· == newline) = some i) :
    restOf l = restOf (l.drop (i + 1)) := by
  induction l generalizing i with
  | nil => simp [List.findIdx?] at h
  | cons b l ih =>
      rw [List.findIdx?_cons] at h
      by_cases hb : b = newline
      · simp only [hb, beq_self_eq_true, if_pos] at h
        obtain rfl : i = 0 := by simpa using h.symm
        simp [restOf, hb]
      · have hbeq : (b == newline) = false := by simpa using hb
        simp only [hbeq, Bool.false_eq_true, if_false, List.findIdx?_succ] at h
        rcases hgo : List.findIdx? (· == newline) l with _ | j
        · rw [hgo] at h
          exact absurd h (by simp)
        · rw [hgo] at h
          obtain rfl : i = j + 1 := by simpa using h.symm
          have hmem : newline ∈ l := by
            by_contra hmem
            have hnone : List.findIdx? (· == newline) l = none :=
              List.findIdx?_eq_none_iff.mpr (fun x hx => by
                simp only [beq_eq_false_iff_ne]
                rintro rfl; exact hmem hx)
            simp [hnone] at hgo
          simp [restOf, hb, hmem, ih j hgo]

theorem linesOf_append (x y : List UInt8) :
    linesOf (x ++ y) = linesOf x ++ linesOf (restOf x ++ y) := by
  induction x with
  | nil => simp [linesOf, restOf]
  | cons b x ih =>
      by_cases hb : b = newline
      · simp [linesOf, restOf, hb, ih]
      · rcases hfs : linesOf x with _ | ⟨f, fs⟩
        · have hm : newline ∉ x := (linesOf_eq_nil_iff x).mp hfs
          have h1 : linesOf (b :: x) = [] := by simp [linesOf, if_neg hb, hfs]
          have h2 : restOf (b :: x) = b :: x :=
            restOf_eq_self _ (by simp [List.mem_cons, Ne.symm hb, hm])
          rw [List.cons_append, h1, h2, List.nil_append, List.cons_append]
        · have hm : newline ∈ x := by
            by_contra hm
            rw [(linesOf_eq_nil_iff x).mpr hm] at hfs
            simp at hfs
          have h1 : linesOf (b :: x) = (b :: f) :: fs := by
            simp [linesOf, if_neg hb, hfs]
          have h2 : restOf (b :: x) = restOf x := by simp [restOf, hb, hm]
          have h4 : linesOf (x ++ y) = f :: (fs ++ linesOf (restOf x ++ y)) := by
            rw [ih, hfs]; simp
          rw [List.cons_append, h1, h2]
          simp [linesOf, if_neg hb, h4]

theorem restOf_append (x y : List UInt8) :
    restOf (x ++ y) = restOf (restOf x ++ y) := by
  induction x with
  | nil => simp [restOf]
  | cons b x ih =>
      by_cases hb : b = newline
      · simp [restOf, hb, ih]
      · by_cases hm : newline ∈ x
        · have hxy : newline ∈ x ++ y := List.mem_append_left y hm
          simp [restOf, hb, hm, hxy, ih]
        · simp [restOf, hb, hm, restOf_eq_self x hm]

/-- On a buffer whose first `searched` bytes hold no newline, the
`receive_data` loop emits exactly the callback images of the
newline-terminated segments and keeps the residue. -/
theorem extractLoop_spec (cb : List UInt8 → Option α) :
    ∀ (n : Nat) (buffer : List UInt8) (searched : Nat), buffer.length ≤ n →
      searched ≤ buffer.length →
      (∀ b ∈ buffer.take searched, b ≠ newline) →
      extractLoop cb buffer searched =
        (List.filterMap cb (linesOf buffer), restOf buffer,
          (restOf buffer).length) := by
  intro n
  induction n with
  | zero =>
      intro buffer searched hn _ _
      have hb : buffer = [] := List.eq_nil_of_length_eq_zero (by omega)
      subst hb
      rw [extractLoop]
      split
      · simp [linesOf, restOf]
      · rename_i found h
        exact absurd (findNewline_lt _ _ _ h) (by simp)
  | succ n ih =>
      intro buffer searched hn hs hpre
      have hsplit : buffer.findIdx? (· == newline) =
          Option.map (· + (buffer.take searched).length)
            ((buffer.drop searched).findIdx? (· == newline)) := by
        conv_lhs => rw [← List.take_append_drop searched buffer]
        rw [List.findIdx?_append]
        have : (buffer.take searched).findIdx? (· == newline) = none :=
          List.findIdx?_eq_none_iff.mpr (fun x hx => by
            simp only [beq_eq_false_iff_ne]; exact hpre x hx)
        simp [this]
      rw [extractLoop]
      split
      · rename_i hfind
        unfold findNewline at hfind
        rcases hdrop : (buffer.drop searched).findIdx? (· == newline) with _ | i
        · have hnone : buffer.findIdx? (· == newline) = none := by
            simp [hsplit, hdrop]
          have hmem : newline ∉ buffer := fun hm => by
            have := List.findIdx?_eq_none_iff.mp hnone newline hm
            simp at this
          simp [(linesOf_eq_nil_iff buffer).mpr hmem, restOf_eq_self buffer hmem]
        · simp [hdrop] at hfind
      · rename_i found hfind
        unfold findNewline at hfind
        rcases hdrop : (buffer.drop searched).findIdx? (· == newline) with _ | i
        · simp [hdrop] at hfind
        · simp only [hdrop, Option.some.injEq] at hfind
          have hfound : buffer.findIdx? (· == newline) = some found := by
            have hlen : (buffer.take searched).length = searched :=
              List.length_take_of_le hs
            simp [hsplit, hdrop, hlen, ← hfind, Nat.add_comm]
          have hlt : found < buffer.length :=
            (List.findIdx?_eq_some_iff_findIdx_eq.mp hfound).1
          have hrec := ih (buffer.drop (found + 1)) 0
            (by simp [List.length_drop]; omega) (Nat.zero_le _) (by simp)
          rw [linesOf_eq_cons buffer found hfound,
            restOf_eq_drop buffer found hfound]
          rw [hrec]
          cases hcb : cb (buffer.take (found + 1)) <;>
            simp [List.filterMap_cons, hcb]

theorem Inv.init (m : Nat) : Inv (State.init m) := by
  constructor <;> simp [State.init]

/-- Full description of one successful `receive_data` call from a resting
state. -/
theorem receiveData_spec (cb : List UInt8 → Option α) (st : State)
    (data : List UInt8) (hInv : Inv st)
    (hsize : (st.buffer ++ data).length ≤ st.maxLineSize) :
    receiveData cb st data =
      .ok (List.filterMap cb (linesOf (st.buffer ++ data)),
        { buffer := restOf (st.buffer ++ data),
          searched := (restOf (st.buffer ++ data)).length,
          maxLineSize := st.maxLineSize }) := by
  unfold receiveData
  rw [if_neg (by omega)]
  rw [extractLoop_spec cb (st.buffer ++ data).length (st.buffer ++ data)
    st.searched (le_refl _)
    (by simp [hInv.1])
    (by
      intro b hb
      rw [hInv.1, List.take_left] at hb
      rintro rfl
      exact hInv.2 hb)]

theorem receiveData_spec_inv (st : State)
    (data : List UInt8) :
    Inv { buffer := restOf (st.buffer ++ data),
          searched := (restOf (st.buffer ++ data)).length,
          maxLineSize := st.maxLineSize } :=
  ⟨rfl, restOf_not_mem _⟩

theorem except_ok_bind {ε β γ : Type _} (x : β) (f : β → Except ε γ) :
    (Except.ok x >>= f : Except ε γ) = f x := rfl

theorem except_error_bind {ε β γ : Type _} (e : ε) (f : β → Except ε γ) :
    ((Except.error e : Except ε β) >>= f : Except ε γ) = .error e := rfl

theorem except_ok_map {ε β γ : Type _} (g : β → γ) (x : β) :
    (g <$> (Except.ok x : Except ε β)) = .ok (g x) := rfl

theorem except_error_map {ε β γ : Type _} (g : β → γ) (e : ε) :
    (g <$> (Except.error e : Except ε β)) = .error e := rfl

/-- Feeding an overflow-free chunk sequence from a resting state succeeds and
produces exactly the newline-terminated segments of the concatenation. -/
theorem processChunks_spec (cb : List UInt8 → Option α) :
    ∀ (chunks : List (List UInt8)) (st : State), Inv st →
      NoOverflow st.maxLineSize st.buffer chunks →
      processChunks cb st chunks =
        .ok (List.filterMap cb (linesOf (st.buffer ++ chunks.flatten)),
          { buffer := restOf (st.buffer ++ chunks.flatten),
            searched := (restOf (st.buffer ++ chunks.flatten)).length,
            maxLineSize := st.maxLineSize }) := by
  intro chunks
  induction chunks with
  | nil =>
      intro st hInv _
      obtain ⟨hs, hb⟩ := hInv
      simp only [processChunks, List.flatten_nil, List.append_nil]
      rw [(linesOf_eq_nil_iff st.buffer).mpr hb, restOf_eq_self _ hb]
      cases st
      simp only [List.filterMap_nil]
      simp_all
  | cons c cs ih =>
      intro st hInv hno
      have h1 := receiveData_spec cb st c hInv hno.1
      have h2 := ih (⟨restOf (st.buffer ++ c), (restOf (st.buffer ++ c)).length,
          st.maxLineSize⟩ : State) (receiveData_spec_inv st c) hno.2
      dsimp only at h2
      simp only [processChunks, h1, except_ok_bind, h2, List.flatten_cons]
      show Except.ok _ = _
      rw [← List.append_assoc, linesOf_append (st.buffer ++ c) cs.flatten,
        restOf_append (st.buffer ++ c) cs.flatten, List.filterMap_append]

/-- A successful `receive_data` call from a resting state necessarily returned
the newline-terminated segments of buffer-plus-data. -/
theorem receiveData_ok (cb : List UInt8 → Option α) (st : State)
    (data : List UInt8) (f : List α) (st1 : State) (hInv : Inv st)
    (h : receiveData cb st data = .ok (f, st1)) :
    f = List.filterMap cb (linesOf (st.buffer ++ data)) ∧
      st1 = ⟨restOf (st.buffer ++ data), (restOf (st.buffer ++ data)).length,
        st.maxLineSize⟩ := by
  by_cases hov : (st.buffer ++ data).length > st.maxLineSize
  · unfold receiveData at h
    rw [if_pos hov] at h
    cases h
  · rw [receiveData_spec cb st data hInv (by omega)] at h
    obtain ⟨h1, h2⟩ := Prod.mk.injEq .. ▸ Except.ok.inj h
    exact ⟨h1.symm, h2.symm⟩

/-- Frames returned by a successful chunked feed are exactly the
newline-terminated segments of the concatenated input. -/
theorem processChunks_ok_spec (cb : List UInt8 → Option α) :
    ∀ (chunks : List (List UInt8)) (st : State) (frames : List α) (st' : State),
      Inv st → processChunks cb st chunks = .ok (frames, st') →
      frames = List.filterMap cb (linesOf (st.buffer ++ chunks.flatten)) := by
  intro chunks
  induction chunks with
  | nil =>
      intro st frames st' hInv h
      simp only [processChunks] at h
      obtain ⟨h1, _⟩ := Prod.mk.injEq .. ▸ Except.ok.inj h
      rw [← h1, List.flatten_nil, List.append_nil,
        (linesOf_eq_nil_iff st.buffer).mpr hInv.2, List.filterMap_nil]
  | cons c cs ih =>
      intro st frames st' hInv h
      simp only [processChunks] at h
      rcases hrd : receiveData cb st c with e | ⟨f1, st1⟩
      · simp only [hrd, except_error_bind, except_error_map] at h
        exact Except.noConfusion h
      · simp only [hrd, except_ok_bind] at h
        obtain ⟨hf1, hst1⟩ := receiveData_ok cb st c f1 st1 hInv hrd
        rcases hpc : processChunks cb st1 cs with e | ⟨f2, st2⟩
        · simp only [hpc, except_error_bind, except_error_map] at h
          exact Except.noConfusion h
        · simp only [hpc, except_ok_bind, except_ok_map] at h
          subst hst1
          have hf2 := ih _ f2 st2 ⟨rfl, restOf_not_mem _⟩ hpc
          have h1 : f1 ++ f2 = frames := by
            have := Except.ok.inj h
            exact (Prod.mk.injEq .. ▸ this).1
          rw [← h1, hf1, hf2]
          dsimp only
          rw [List.flatten_cons, ← List.append_assoc,
            linesOf_append (st.buffer ++ c) cs.flatten,
            List.filterMap_append]

/-- Every segment produced by `linesOf` is non-empty and ends with the
newline byte. -/
theorem linesOf_frames (l : List UInt8) :
    ∀ f ∈ linesOf l, f ≠ [] ∧ f.getLast? = some newline := by
  induction l with
  | nil => simp [linesOf]
  | cons b l ih =>
      by_cases hb : b = newline
      · intro f hf
        simp only [linesOf, if_pos hb] at hf
        rcases List.mem_cons.mp hf with rfl | hf
        · subst hb; exact ⟨by simp, by simp⟩
        · exact ih f hf
      · intro f hf
        simp only [linesOf, if_neg hb] at hf
        rcases hfs : linesOf l with _ | ⟨g, gs⟩
        · rw [hfs] at hf; simp at hf
        · rw [hfs] at hf
          rcases List.mem_cons.mp hf with rfl | hf
          · have hg := ih g (by rw [hfs]; exact List.mem_cons_self g gs)
            refine ⟨by simp, ?_⟩
            rcases g with _ | ⟨x, xs⟩
            · exact absurd rfl hg.1
            · rw [List.getLast?_cons_cons]
              exact hg.2
          · exact ih f (by rw [hfs]; exact List.mem_cons_of_mem g hf)

end LineReceiver

/-- **C2.** For every byte sequence and every way of splitting it into chunks
fed successively to the line framer's `receive_data`, the frames emitted (here
observed through the identity callback) are exactly the `\n`-terminated
segments of the accumulated input, in arrival order, each frame including its
trailing newline byte. -/
theorem claim_C2 (maxLineSize : Nat) (chunks : List (List UInt8))
    (frames : List (List UInt8)) (st' : LineReceiver.State)
    (h : LineReceiver.processChunks (fun frame => some frame)
        (LineReceiver.State.init maxLineSize) chunks = .ok (frames, st')) :
    frames = LineReceiver.linesOf chunks.flatten ∧
      ∀ f ∈ frames, f ≠ [] ∧ f.getLast? = some LineReceiver.newline := by
  have hframes := LineReceiver.processChunks_ok_spec (fun frame => some frame)
    chunks (LineReceiver.State.init maxLineSize) frames st'
    (by constructor <;> simp [LineReceiver.State.init]) h
  simp only [LineReceiver.State.init, List.nil_append] at hframes
  rw [List.filterMap_some] at hframes
  exact ⟨hframes, fun f hf =>
    LineReceiver.linesOf_frames chunks.flatten f (hframes ▸ hf)⟩

/-- Witness for C2: the two chunks `"hi\nb"` and `"ye\n"` yield exactly the
frames `"hi\n"` and `"bye\n"`. -/
theorem claim_C2_witness :
    (LineReceiver.processChunks (fun frame => some frame)
        (LineReceiver.State.init 16384) [[104, 105, 10, 98], [121, 101, 10]] =
      .ok ([[104, 105, 10], [98, 121, 101, 10]],
        (⟨[], 0, 16384⟩ : LineReceiver.State))) ∧
    ([[104, 105, 10], [98, 121, 101, 10]] : List (List UInt8)) =
      LineReceiver.linesOf
        ([[104, 105, 10, 98], [121, 101, 10]] : List (List UInt8)).flatten := by
  have hp : LineReceiver.processChunks (fun frame => some frame)
      (LineReceiver.State.init 16384) [[104, 105, 10, 98], [121, 101, 10]] =
      .ok ([[104, 105, 10], [98, 121, 101, 10]],
        (⟨[], 0, 16384⟩ : LineReceiver.State)) := by
    rw [LineReceiver.processChunks_spec (fun frame => some frame)
      [[104, 105, 10, 98], [121, 101, 10]] (LineReceiver.State.init 16384)
      (by constructor <;> simp [LineReceiver.State.init]) (by decide)]
    rfl
  exact ⟨hp, (claim_C2 16384 [[104, 105, 10, 98], [121, 101, 10]]
    [[104, 105, 10], [98, 121, 101, 10]] (⟨[], 0, 16384⟩ : LineReceiver.State)
    hp).1⟩

/-- **C10.** If a single `receive_data` call brings the total buffered byte
count above `max_line_size`, the framer raises `BufferTooLargeError` before
extracting any frames, even when the newly received data contains newline
bytes; no frames are delivered. -/
theorem claim_C10 (cb : List UInt8 → Option α) (st : LineReceiver.State)
    (data : List UInt8)
    (h : st.maxLineSize < st.buffer.length + data.length) :
    LineReceiver.receiveData cb st data = .error .bufferTooLarge := by
  unfold LineReceiver.receiveData
  rw [if_pos (by simp only [List.length_append]; omega)]

/-- Witness for C10: with `max_line_size = 4`, an empty buffer, and six new
bytes containing three newlines, `receive_data` raises `BufferTooLargeError`
and delivers none of the completed frames. -/
theorem claim_C10_witness :
    (4 : Nat) < 0 + 6 ∧
    LineReceiver.receiveData (fun frame => some frame)
        (⟨[], 0, 4⟩ : LineReceiver.State) [104, 10, 105, 10, 106, 10] =
      .error .bufferTooLarge :=
  ⟨by norm_num,
    claim_C10 (fun frame => some frame) (⟨[], 0, 4⟩ : LineReceiver.State)
      [104, 10, 105, 10, 106, 10] (by norm_num)⟩

namespace Server

theorem rowsOf_map_json (uuids : Nat → String) :
    ∀ (off : Nat) (l : List Events.Download),
      (rowsOf uuids off l).map Row.json = l := by
  intro off l
  induction l generalizing off with
  | nil => rfl
  | cons item rest ih => simp [rowsOf, ih]

theorem mem_rowsOf_json (uuids : Nat → String) (off : Nat)
    (l : List Events.Download) (r : Row) (hr : r ∈ rowsOf uuids off l) :
    r.json ∈ l := by
  rw [← rowsOf_map_json uuids off l]
  exact List.mem_map_of_mem Row.json hr

theorem groupByKey_flatten (key : α → String) :
    ∀ (n : Nat) (l : List α), l.length ≤ n →
      (groupByKey key l).flatten = l := by
  intro n
  induction n with
  | zero =>
      intro l hl
      have hl0 : l = [] := List.eq_nil_of_length_eq_zero (by omega)
      subst hl0
      simp [groupByKey]
  | succ n ih =>
      intro l hl
      cases l with
      | nil => simp [groupByKey]
      | cons a rest =>
          rw [groupByKey]
          simp only [List.flatten_cons]
          rw [ih _ (by
            have := (List.dropWhile_sublist (l := rest)
              (p := fun b => key b == key a)).length_le
            simp only [List.length_cons] at hl
            omega)]
          simp [List.takeWhile_append_dropWhile]

theorem groupByKey_groups (key : α → String) :
    ∀ (n : Nat) (l : List α) (g : List α), l.length ≤ n →
      g ∈ groupByKey key l →
      ∃ a t, g = a :: t ∧ ∀ x ∈ g, key x = key a := by
  intro n
  induction n with
  | zero =>
      intro l g hl hg
      have hl0 : l = [] := List.eq_nil_of_length_eq_zero (by omega)
      subst hl0
      simp [groupByKey] at hg
  | succ n ih =>
      intro l g hl hg
      cases l with
      | nil => simp [groupByKey] at hg
      | cons a rest =>
          rw [groupByKey] at hg
          rcases List.mem_cons.mp hg with rfl | hg
          · refine ⟨a, _, rfl, ?_⟩
            intro x hx
            rcases List.mem_cons.mp hx with rfl | hx
            · rfl
            · simpa using List.mem_takeWhile_imp hx
          · exact ih _ g (by
              have := (List.dropWhile_sublist (l := rest)
                (p := fun b => key b == key a)).length_le
              simp only [List.length_cons] at hl
              omega) hg

theorem buildBatches_flatten (uuids : Nat → String) :
    ∀ (gs : List (List Events.Download)) (off : Nat),
      (((buildBatches uuids off gs).map Prod.snd).flatten).map Row.json =
        gs.flatten := by
  intro gs
  induction gs with
  | nil => intro off; rfl
  | cons g gs ih =>
      intro off
      cases g with
      | nil => simpa [buildBatches] using ih off
      | cons a t =>
          simp only [buildBatches, List.map_cons, List.flatten_cons,
            List.map_append, rowsOf_map_json, ih]

theorem buildBatches_mem (uuids : Nat → String) :
    ∀ (gs : List (List Events.Download)) (off : Nat)
      (b : String × List Row), b ∈ buildBatches uuids off gs →
      ∃ g, g ∈ gs ∧ ∃ off' a t, g = a :: t ∧
        b = (extract_item_date a, rowsOf uuids off' g) := by
  intro gs
  induction gs with
  | nil => intro off b hb; simp [buildBatches] at hb
  | cons g gs ih =>
      intro off b hb
      cases g with
      | nil =>
          obtain ⟨g', hg', rest⟩ := ih off b (by simpa [buildBatches] using hb)
          exact ⟨g', List.mem_cons_of_mem _ hg', rest⟩
      | cons a t =>
          simp only [buildBatches] at hb
          rcases List.mem_cons.mp hb with rfl | hb
          · exact ⟨a :: t, List.mem_cons_self _ _, off, a, t, rfl, rfl⟩
          · obtain ⟨g', hg', rest⟩ := ih _ b hb
            exact ⟨g', List.mem_cons_of_mem _ hg', rest⟩

end Server

/-- **C4.** For every finite list of `Download` records handed to the batcher
in one compose window (and every draw of the per-row uuids), the rows
produced across all generated sub-batches are exactly those records — no
record lost, none duplicated — every sub-batch contains only records sharing
one UTC event date, and the sub-batch's `templateSuffix` equals that common
date formatted `YYYYMMDD`. -/
theorem claim_C4 (uuids : Nat → String)
    (allItems : List Events.Download) :
    ((((Server.compute_batches uuids allItems).map Prod.snd).flatten).map
        Server.Row.json).Perm allItems ∧
    ∀ b ∈ Server.compute_batches uuids allItems, ∀ r ∈ b.2,
      Server.extract_item_date r.json = b.1 := by
  constructor
  · rw [Server.compute_batches, Server.buildBatches_flatten,
      Server.groupByKey_flatten Server.extract_item_date
        (allItems.mergeSort Server.dateLe).length _ (le_refl _)]
    exact List.mergeSort_perm allItems Server.dateLe
  · intro b hb r hr
    rw [Server.compute_batches] at hb
    obtain ⟨g, hg, off', a, t, rfl, rfl⟩ :=
      Server.buildBatches_mem uuids _ 0 b hb
    obtain ⟨a', t', heq, hkey⟩ :=
      Server.groupByKey_groups Server.extract_item_date
        (allItems.mergeSort Server.dateLe).length _ _ (le_refl _) hg
    have hja : r.json ∈ a :: t := Server.mem_rowsOf_json uuids off' _ r hr
    have h1 := hkey r.json (heq ▸ hja)
    have h2 := hkey a (heq ▸ List.mem_cons_self a t)
    simpa [h2] using h1

namespace Server

theorem runRetry_deadlines (behavior : Nat → Option SendError)
    (apiTimeout : Option Nat) :
    ∀ (left k : Nat) (d : Nat),
      d ∈ (runRetry behavior apiTimeout k left).1 →
      d = attemptDeadline apiTimeout := by
  intro left
  induction left with
  | zero =>
      intro k d hd
      simpa [runRetry] using hd
  | succ left ih =>
      intro k d hd
      cases hbk : behavior k with
      | none =>
          simp only [runRetry, hbk] at hd
          simpa using hd
      | some e =>
          simp only [runRetry, hbk] at hd
          by_cases hr : e.retryable = true
          · simp only [hr, if_true] at hd
            rcases List.mem_cons.mp hd with rfl | hd
            · rfl
            · exact ih (k + 1) d hd
          · simp only [hr, if_false] at hd
            simpa using hd

theorem runRetry_all_fail (behavior : Nat → Option SendError)
    (apiTimeout : Option Nat)
    (hfail : ∀ j, ∃ e, behavior j = some e ∧ e.retryable = true) :
    ∀ (left k : Nat),
      (runRetry behavior apiTimeout k left).1.length = left + 1 ∧
      ∃ e, (runRetry behavior apiTimeout k left).2 = some e ∧
        e.retryable = true := by
  intro left
  induction left with
  | zero =>
      intro k
      obtain ⟨e, he, hr⟩ := hfail k
      exact ⟨by simp [runRetry], e, by simp [runRetry, he], hr⟩
  | succ left ih =>
      intro k
      obtain ⟨e, he, hr⟩ := hfail k
      obtain ⟨hlen, e', he', hr'⟩ := ih (k + 1)
      constructor
      · simp only [runRetry, he, hr, if_true, List.length_cons]
        omega
      · exact ⟨e', by simp only [runRetry, he, hr, if_true]; exact he', hr'⟩

end Server

/-- **C8.** When the sink fails every attempt with a retry-eligible error,
sending a batch performs exactly `retry_max_attempts` attempts (default 10
when the option is `None`), then emits one error-level log carrying the
number of items in the batch, drops the batch, and returns normally (the
model's total return type reflects that `send_batch` catches
`trio.TooSlowError` and every other `Exception`). -/
theorem claim_C8 {ρ : Type} (behavior : Nat → Option Server.SendError)
    (batch : List ρ)
    (retryMaxAttempts retryMaxWait retryMultiplier apiTimeout : Option Nat)
    (hfail : ∀ j, ∃ e, behavior j = some e ∧ e.retryable = true)
    (hpos : 0 < retryMaxAttempts.getD 10) :
    (Server.send_batch behavior batch retryMaxAttempts retryMaxWait
        retryMultiplier apiTimeout).deadlines.length =
      retryMaxAttempts.getD 10 ∧
    ∃ pre, (pre = "Timed out sending " ∨ pre = "Error sending ") ∧
      (Server.send_batch behavior batch retryMaxAttempts retryMaxWait
          retryMultiplier apiTimeout).logs =
        [⟨.error, pre ++ toString batch.length ++ " items; Dropping them."⟩] := by
  obtain ⟨hlen, e, he, _⟩ := Server.runRetry_all_fail behavior apiTimeout hfail
    (retryMaxAttempts.getD 10 - 1) 1
  have hlen' : (Server.runRetry behavior apiTimeout 1
      (retryMaxAttempts.getD 10 - 1)).1.length = retryMaxAttempts.getD 10 := by
    rw [hlen]; omega
  simp only [Server.send_batch]
  rw [he]
  cases e with
  | tooSlow => exact ⟨hlen', "Timed out sending ", Or.inl rfl, rfl⟩
  | brokenStream => exact ⟨hlen', "Error sending ", Or.inr rfl, rfl⟩
  | tokenFetch => exact ⟨hlen', "Error sending ", Or.inr rfl, rfl⟩
  | bigQuery => exact ⟨hlen', "Error sending ", Or.inr rfl, rfl⟩
  | other => exact ⟨hlen', "Error sending ", Or.inr rfl, rfl⟩

/-- Witness for C8: a sink that times out on every attempt, a three-item
batch, and all options left `None`: ten attempts, then one error log carrying
the count. -/
theorem claim_C8_witness :
    (∀ j : Nat, ∃ e, (fun _ : Nat => some Server.SendError.tooSlow) j =
        some e ∧ e.retryable = true) ∧
    (0 : Nat) < (none : Option Nat).getD 10 ∧
    (Server.send_batch (fun _ => some Server.SendError.tooSlow)
        ([0, 1, 2] : List Nat) none none none none).deadlines.length = 10 ∧
    ∃ pre, (pre = "Timed out sending " ∨ pre = "Error sending ") ∧
      (Server.send_batch (fun _ => some Server.SendError.tooSlow)
          ([0, 1, 2] : List Nat) none none none none).logs =
        [⟨.error, pre ++ toString ([0, 1, 2] : List Nat).length ++
          " items; Dropping them."⟩] :=
  ⟨fun _ => ⟨.tooSlow, rfl, rfl⟩, by decide,
    claim_C8 (fun _ => some Server.SendError.tooSlow) ([0, 1, 2] : List Nat)
      none none none none (fun _ => ⟨.tooSlow, rfl, rfl⟩) (by decide)⟩

/-- **C7 (corrected).** Each individual `insert_all` attempt made by a send
task runs under a `trio.fail_after` deadline equal to the configured
`api_timeout`; when `api_timeout` is not supplied the deadline defaults to
**15** seconds (not 30 — the CLI layer supplies 30, but `actually_send_batch`
itself substitutes 15 for `None`). -/
theorem claim_C7 {ρ : Type} (behavior : Nat → Option Server.SendError)
    (batch : List ρ)
    (retryMaxAttempts retryMaxWait retryMultiplier apiTimeout : Option Nat)
    (d : Nat)
    (hd : d ∈ (Server.send_batch behavior batch retryMaxAttempts retryMaxWait
        retryMultiplier apiTimeout).deadlines) :
    d = apiTimeout.getD 15 := by
  simp only [Server.send_batch] at hd
  have hmem : d ∈ (Server.runRetry behavior apiTimeout 1
      (retryMaxAttempts.getD 10 - 1)).1 := by
    rcases hr : (Server.runRetry behavior apiTimeout 1
        (retryMaxAttempts.getD 10 - 1)).2 with _ | e
    · rw [hr] at hd; exact hd
    · rw [hr] at hd
      cases e <;> exact hd
  exact Server.runRetry_deadlines behavior apiTimeout _ 1 d hmem

/-- Counterexample for C7 as stated: with `api_timeout = None` the single
successful attempt runs under a deadline of 15 seconds, not 30. -/
theorem claim_C7_counterexample :
    (Server.send_batch (fun _ => none) ([] : List Nat)
        none none none none).deadlines = [15] ∧ (15 : Nat) ≠ 30 :=
  ⟨rfl, by decide⟩

/-- Witness for C7 (amended): the deadline 15 observed in a concrete run with
`api_timeout = None` equals `Option.getD none 15`. -/
theorem claim_C7_witness :
    15 ∈ (Server.send_batch (fun _ => none) ([] : List Nat)
        none none none none).deadlines ∧
    (15 : Nat) = (none : Option Nat).getD 15 :=
  ⟨by decide,
    claim_C7 (fun _ => none) ([] : List Nat) none none none none 15
      (by decide)⟩

namespace Migration

theorem schemaCompatible_nil_iff (a : List Col) :
    SchemaCompatible [] a ↔
      ∀ c ∈ a, c.mode = "NULLABLE" ∨ c.mode = "REPEATED" := by
  constructor
  · intro h
    cases h with
    | nil _ ha => exact ha
  · exact .nil a

end Migration

/-- **C9.** Schema validation accepts a desired schema exactly when, walking
the existing and desired column lists pairwise in order, every existing
column is matched positionally by a desired column of equal name and equal
type whose mode is unchanged or changed only from `REQUIRED` to `NULLABLE`
(recursing into the nested fields of `RECORD`-typed columns), and every extra
desired column appears after all existing ones with mode `NULLABLE` or
`REPEATED`; a desired schema shorter than the existing one is never
compatible (no `SchemaCompatible` derivation pairs an existing column with a
missing one), hence always rejected. -/
theorem claim_C9 (existing desired : List Migration.Col) :
    Migration.validate_schema existing desired = .ok () ↔
      Migration.SchemaCompatible existing desired := by
  induction existing, desired using Migration.validate_schema.induct with
  | case1 =>
      simp only [Migration.validate_schema]
      exact ⟨fun _ => .nil [] (by simp), fun _ => trivial⟩
  | case2 e es =>
      simp only [Migration.validate_schema]
      constructor
      · intro h; exact absurd h (by simp)
      · intro h; cases h
  | case3 n ns hmode ih =>
      simp only [Migration.validate_schema, if_pos hmode]
      rw [ih, Migration.schemaCompatible_nil_iff,
        Migration.schemaCompatible_nil_iff]
      constructor
      · intro h c hc
        rcases List.mem_cons.mp hc with rfl | hc
        · exact hmode
        · exact h c hc
      · intro h c hc
        exact h c (List.mem_cons_of_mem n hc)
  | case4 n ns hmode =>
      simp only [Migration.validate_schema, if_neg hmode]
      constructor
      · intro h; exact absurd h (by simp)
      · intro h
        rw [Migration.schemaCompatible_nil_iff] at h
        exact absurd (h n (List.mem_cons_self n ns)) hmode
  | case5 e es n ns hname =>
      simp only [Migration.validate_schema, if_pos hname]
      constructor
      · intro h; exact absurd h (by simp)
      · intro h
        cases h with
        | cons _ _ _ _ h1 => exact absurd h1 hname
  | case6 e es n ns hname htype =>
      simp only [Migration.validate_schema, if_neg hname, if_pos htype]
      constructor
      · intro h; exact absurd h (by simp)
      · intro h
        cases h with
        | cons _ _ _ _ _ h2 => exact absurd h2 htype
  | case7 e es n ns hname htype hmode =>
      simp only [Migration.validate_schema, if_neg hname, if_neg htype,
        if_pos hmode]
      constructor
      · intro h; exact absurd h (by simp)
      · intro h
        cases h with
        | cons _ _ _ _ _ _ h3 =>
            rcases h3 with h3 | h3
            · exact absurd h3 hmode.1
            · exact absurd h3 hmode.2
  | case8 e es n ns hname htype hmode hrecord msg herr ihf =>
      simp only [Migration.validate_schema, if_neg hname, if_neg htype,
        if_neg hmode, if_pos hrecord, herr]
      constructor
      · intro h; exact absurd h (by simp)
      · intro h
        cases h with
        | cons _ _ _ _ _ _ _ h4 =>
            have := (ihf.mpr (h4 hrecord))
            rw [this] at herr
            exact absurd herr (by simp)
  | case9 e es n ns hname htype hmode hrecord hok ihf ih =>
      simp only [Migration.validate_schema, if_neg hname, if_neg htype,
        if_neg hmode, if_pos hrecord, hok]
      rw [ih]
      constructor
      · intro h
        exact .cons e n es ns (not_not.mp hname) (not_not.mp htype)
          (by
            rcases not_and_or.mp hmode with h1 | h1
            · exact Or.inl (not_not.mp h1)
            · exact Or.inr (not_not.mp h1)) (fun _ => ihf.mp hok) h
      · intro h
        cases h with
        | cons _ _ _ _ _ _ _ _ h5 => exact h5
  | case10 e es n ns hname htype hmode hrecord ih =>
      simp only [Migration.validate_schema, if_neg hname, if_neg htype,
        if_neg hmode, if_neg hrecord]
      rw [ih]
      constructor
      · intro h
        exact .cons e n es ns (not_not.mp hname) (not_not.mp htype)
          (by
            rcases not_and_or.mp hmode with h1 | h1
            · exact Or.inl (not_not.mp h1)
            · exact Or.inr (not_not.mp h1))
          (fun hr => absurd hr hrecord) h
      · intro h
        cases h with
        | cons _ _ _ _ _ _ _ _ h5 => exact h5

/-- **C3 (code bug).** An otherwise grammatical line whose 1–3 digit PRI
exceeds 191 — here `<192>` — passes the pyparsing grammar (the grammar caps
the PRI at three digits, not at 191), so `parse` does **not** raise
`UnparseableSyslogMessage`: the `Facility` enum converter raises a bare
`ValueError` on the out-of-range facility `192 / 8 = 24`.  The same line with
PRI `134` parses successfully, isolating the PRI as the sole deviation. -/
theorem claim_C3 :
    Syslog.parse
        "<192>2018-07-20T02:19:20Z cache-itm18828 linehaul[411617]: test" =
      .error (.valueError 24) ∧
    (Syslog.SyslogError.valueError 24 ≠ .unparseable) ∧
    Syslog.parse
        "<134>2018-07-20T02:19:20Z cache-itm18828 linehaul[411617]: test" =
      .ok ⟨16, 6, ⟨2018, 7, 20, 2, 19, 20⟩, some "cache-itm18828",
        "linehaul", "411617", "test"⟩ :=
  ⟨rfl, by decide, rfl⟩

namespace UA

theorem tryFormats_none (ua : String) :
    ∀ fs : List (String → Option UserAgent), (∀ f ∈ fs, f ua = none) →
      tryFormats fs ua = none := by
  intro fs
  induction fs with
  | nil => intro _; rfl
  | cons f fs ih =>
      intro h
      simp only [tryFormats, h f (List.mem_cons_self f fs)]
      exact ih (fun g hg => h g (List.mem_cons_of_mem f hg))

end UA

/-- **C5 (corrected, amended).** For every user-agent input and every
permutation of a registered parser list — which covers both the shuffles
performed at registration and the reorderings of the self-optimization
pass, both of which only permute `_parsers` — `ParserSet` dispatch returns
the same outcome, **provided** all registered parsers that claim that input
agree on the parsed data.  (The proviso is forced: two of the program's own
parser families claim a common input with different data, see the
counterexample.) -/
theorem claim_C5 {β : Type} (l l' : List (String → Option β)) (ua : String)
    (hperm : l.Perm l')
    (hagree : ∀ p ∈ l, ∀ q ∈ l, ∀ v w,
      p ua = some v → q ua = some w → v = w) :
    UA.parserSetCall l ua = UA.parserSetCall l' ua := by
  induction hperm with
  | nil => rfl
  | cons x hperm ih =>
      simp only [UA.parserSetCall]
      cases hx : x ua with
      | some v => rfl
      | none =>
          exact ih (fun p hp q hq =>
            hagree p (List.mem_cons_of_mem x hp) q (List.mem_cons_of_mem x hq))
  | swap x y l =>
      simp only [UA.parserSetCall]
      cases hy : y ua with
      | some vy =>
          cases hx : x ua with
          | some vx =>
              rw [hagree y (by simp) x (by simp) vy vx hy hx]
          | none => rfl
      | none =>
          cases hx : x ua with
          | some vx => rfl
          | none => rfl
  | trans h12 h23 ih12 ih23 =>
      exact (ih12 hagree).trans (ih23 (fun p hp q hq =>
        hagree p (h12.mem_iff.mpr hp) q (h12.mem_iff.mpr hq)))

/-- Counterexample for C5 as stated: the program's own `conda` and `pex`
parser families both claim `"conda/4.5 pex/1.0"` (the pex pattern
`pex/(?P<version>\S+)$` is unanchored), with different parsed data, so the
two orders of the same registered set give different outcomes. -/
theorem claim_C5_counterexample :
    ([UA.conda_format, UA.pex_format].Perm
      [UA.pex_format, UA.conda_format]) ∧
    UA.parserSetCall [UA.conda_format, UA.pex_format] "conda/4.5 pex/1.0" ≠
      UA.parserSetCall [UA.pex_format, UA.conda_format]
        "conda/4.5 pex/1.0" :=
  ⟨List.Perm.swap UA.pex_format UA.conda_format [], by decide⟩

/-- Witness for C5 (amended): on `"conda/4.5"` only the conda family
claims, the agreement hypothesis holds, and the two orders agree. -/
theorem claim_C5_witness :
    ([UA.conda_format, UA.pex_format].Perm
      [UA.pex_format, UA.conda_format]) ∧
    (∀ p ∈ [UA.conda_format, UA.pex_format],
      ∀ q ∈ [UA.conda_format, UA.pex_format], ∀ v w,
        p "conda/4.5" = some v → q "conda/4.5" = some w → v = w) ∧
    UA.parserSetCall [UA.conda_format, UA.pex_format] "conda/4.5" =
      UA.parserSetCall [UA.pex_format, UA.conda_format] "conda/4.5" := by
  have hperm := List.Perm.swap UA.pex_format UA.conda_format
    ([] : List (String → Option UA.UserAgent))
  have hpex : UA.pex_format "conda/4.5" = none := rfl
  have hagree : ∀ p ∈ [UA.conda_format, UA.pex_format],
      ∀ q ∈ [UA.conda_format, UA.pex_format], ∀ v w,
        p "conda/4.5" = some v → q "conda/4.5" = some w → v = w := by
    intro p hp q hq v w hv hw
    rcases List.mem_cons.mp hp with rfl | hp
    · rcases List.mem_cons.mp hq with rfl | hq
      · exact Option.some.inj (hv.symm.trans hw)
      · rw [List.mem_singleton.mp hq, hpex] at hw
        exact Option.noConfusion hw
    · rw [List.mem_singleton.mp hp, hpex] at hv
      exact Option.noConfusion hv
  exact ⟨hperm, hagree,
    claim_C5 [UA.conda_format, UA.pex_format] [UA.pex_format, UA.conda_format]
      "conda/4.5" hperm hagree⟩

/-- **C6 (corrected, amended).** For every user-agent string that **no
parser family claims**: if it matches the ignore pattern, `Parser.parse`
returns `None`; otherwise `Parser.parse` raises
`UnknownUserAgentError(ua)`.  (The restriction to unclaimed strings is
forced: the parser families run *before* the ignore test, and a string can
match both a family and the ignore pattern, see the counterexample.) -/
theorem claim_C6 (ua : String) (h : ∀ f ∈ UA.formats, f ua = none) :
    UA.Parser.parse ua =
      if UA.ignored ua then .ok none
      else .error (.unknownUserAgent ua) := by
  unfold UA.Parser.parse
  rw [UA.tryFormats_none ua UA.formats h]

/-- Counterexample for C6 as stated: `"WordPress/ pex/1.0"` matches the
ignore pattern (`^WordPress/`), yet `Parser.parse` does not return null —
the unanchored pex family claims the string first. -/
theorem claim_C6_counterexample :
    UA.ignored "WordPress/ pex/1.0" = true ∧
    UA.Parser.parse "WordPress/ pex/1.0" =
      .ok (some (UA.installerUA (some "pex") (some "1.0"))) ∧
    some (UA.installerUA (some "pex") (some "1.0")) ≠
      (none : Option UA.UserAgent) :=
  ⟨by decide, rfl, by decide⟩

/-- Witness for C6 (amended): `"totally-unheard-of/0.1"` is claimed by no
family and not ignored, so parsing raises `UnknownUserAgentError`; `"Ruby"`
is claimed by no family and ignored, so parsing returns `None`. -/
theorem claim_C6_witness :
    (∀ f ∈ UA.formats, f "totally-unheard-of/0.1" = none) ∧
    (∀ f ∈ UA.formats, f "Ruby" = none) ∧
    UA.Parser.parse "totally-unheard-of/0.1" =
      .error (.unknownUserAgent "totally-unheard-of/0.1") ∧
    UA.Parser.parse "Ruby" = .ok none := by
  have h1 : ∀ f ∈ UA.formats, f "totally-unheard-of/0.1" = none := by decide
  have h2 : ∀ f ∈ UA.formats, f "Ruby" = none := by decide
  refine ⟨h1, h2, ?_, ?_⟩
  · rw [claim_C6 "totally-unheard-of/0.1" h1]
    simp [show UA.ignored "totally-unheard-of/0.1" = false from by decide]
  · rw [claim_C6 "Ruby" h2]
    simp [show UA.ignored "Ruby" = true from by decide]

/-- **C1** (corrected).  The claim says: for an event line whose user-agent
is claimed by no parser family and not ignored, `events.parser.parse`
drops the record and writes exactly one *error*-severity log entry
containing the UA text.  In the code, the user-agent stage is the
module-level `ua.parser.parse`, whose loop `if parser.test(user_agent):`
raises `AttributeError` on its first iteration (`CallbackUserAgentParser`
defines no `test`), an exception `events.parser.parse` does not catch.  So
for **every** message that passes the grammar and the dispatch stage —
whatever its user agent — `parse` terminates with `AttributeError` and
writes no log record at all: no `UnknownUserAgentError` is ever raised, and
even the handler for it would log at *info* severity and return the event
rather than drop it. -/
theorem claim_C1 (message : String) (parsed : Events.ParsedMessage)
    (event : Events.Event)
    (hgram : Events.parseMessage message = some parsed)
    (hdis : Events.dispatch parsed = .ok event) :
    Events.parse message = (.error .attributeError, ([] : List Log)) := by
  unfold Events.parse
  rw [hgram]
  dsimp only
  rw [hdis]
  rfl

/-- Counterexample for the original C1: the spec's own payload.  Its UA
part `totally-unheard-of/0.1` is claimed by no family and does not match
the ignore pattern, so the claim demands a returned drop plus exactly one
error-severity log entry carrying the UA text; the code instead lets the
user-agent stage's `AttributeError` escape `parse` and writes **zero** log
records. -/
theorem claim_C1_counterexample :
    (∀ f ∈ UA.formats, f "totally-unheard-of/0.1" = none) ∧
    UA.ignored "totally-unheard-of/0.1" = false ∧
    Events.parse
        "3@download|Fri, 20 Jul 2018 02:19:19 GMT|JP|/packages/ba/c8/cfn_flip-1.0.3.tar.gz|TLSv1.2|ECDHE-RSA-AES128-GCM-SHA256|cfn-flip|1.0.3|sdist|totally-unheard-of/0.1"
      = (.error .attributeError, ([] : List Log)) :=
  ⟨by decide, by decide, rfl⟩

/-- Witness for C1 (corrected), at the spec's sample payload: the grammar
and the dispatch stage both succeed on it, and `parse` ends in
`AttributeError` with no log written. -/
theorem claim_C1_witness :
    Events.parse
        "3@download|Fri, 20 Jul 2018 02:19:20 GMT|US|/packages/ba/c8/cfn_flip-1.0.3.tar.gz|TLSv1.2|ECDHE-RSA-AES128-GCM-SHA256|cfn-flip|1.0.3|sdist|pip/18.0 CPython/3.7"
      = (.error .attributeError, ([] : List Log)) :=
  claim_C1 _ _ _ rfl rfl

end Linehaul
